import Mathlib

/-!
# LED candle firmware (`LED-Candle_attiny10.c`): a shallow embedding

The firmware is one interrupt handler (`ISR(WDT_vect)`, the light measurement)
and the endless loop of `main`.  Machine integers are natural numbers or
integers with the reduction modulo the word size written out where the C code
can wrap.  The target is an AVR, so `int` is 16 bits wide, `uint8_t` operands
promote to `int`, and `>>` on a negative `int` is an arithmetic shift (gcc).
-/

namespace LEDCandle

/-! ## Constants of the source -/

/-- `#define TURN_OFF 400`. -/
def TURN_OFF : Nat := 400

/-- `#define TURN_ON TURN_OFF+800`, as the text expands inside
`light >= TURN_ON`, that is `light >= 400+800`. -/
def TURN_ON : Nat := TURN_OFF + 800

/-- The text `(TURN_ON*3)` of the interrupt handler after macro expansion:
`(TURN_OFF+800*3)`, where the product binds tighter than the sum. -/
def TURN_ON_x3 : Nat := TURN_OFF + 800 * 3

/-- `#define PWM_MIN 0x80`. -/
def PWM_MIN : Nat := 0x80

/-- `#define ON 1`. -/
def ON : Nat := 1

/-- `#define OFF 0`. -/
def OFF : Nat := 0

/-- `#define CYCLE_MS 127`. -/
def CYCLE_MS : Nat := 127

/-- `#define RAND_MAX_32 ((1UL << 31) - 1)`. -/
def RAND_MAX_32 : Nat := (1 <<< 31) - 1

/-- `#define BIT_SHIFT 3`. -/
def BIT_SHIFT : Nat := 3

/-- `#define STEPS (1<<BIT_SHIFT)`. -/
def STEPS : Nat := 1 <<< BIT_SHIFT

/-! ## The pieces of the control loop -/

/-- Lines 95-101: the update of `state` from the reading of `light`. -/
def modeUpdate (state light : Nat) : Nat :=
  if light ≤ TURN_OFF then OFF
  else if light ≥ TURN_ON then ON
  else state

/-- Lines 86-93: the update of the 8-bit `lowBatteryCount`; `pinHigh` is the
value of `PINB & _BV(BATTERY)` as a truth value.  The increment is the
`uint8_t` one, modulo 256. -/
def batteryUpdate (pinHigh : Bool) (lowBatteryCount : Nat) : Nat :=
  if pinHigh then
    let c := (lowBatteryCount + 1) % 256
    if c = 255 then 254 else c
  else 0

/-- Line 135: `(rand_value * 214013UL + 2531011UL) & RAND_MAX_32` in `uint32_t`
arithmetic, each operation wrapping modulo `2^32`. -/
def randNext (rand_value : Nat) : Nat :=
  (((rand_value * 214013) % 2 ^ 32 + 2531011) % 2 ^ 32) &&& RAND_MAX_32

/-- Line 139 before the store: `(rand_value % 0x7F) | PWM_MIN`. -/
def targetWord (rand_value : Nat) : Nat :=
  (rand_value % 0x7F) ||| PWM_MIN

/-- Line 139: the value stored in the `uint8_t led1_final`. -/
def newTarget (rand_value : Nat) : Nat :=
  targetWord rand_value % 256

/-! ## The light measurement of the interrupt handler -/

/-- Lines 46-54: the counting loop of `ISR(WDT_vect)`.  `pin k` is the value of
`PINB & _BV(RC_PIN)` at the poll number `k`; `light` is the 16-bit counter, so
`light++` is modulo `2^16`.  The loop has no bound of its own in the source, so
the model takes fuel and returns `none` when it runs out; the result is the
final `light` and the number of polls that read high, i.e. of increments. -/
def countLoop (pin : Nat → Bool) : Nat → Nat → Nat → Option (Nat × Nat)
  | 0, _, _ => none
  | fuel + 1, poll, light =>
    if pin poll then
      let light1 := (light + 1) % 65536
      if light1 > TURN_ON_x3 then some (light1, poll + 1)
      else countLoop pin fuel (poll + 1) light1
    else some (light, poll)

/-- Lines 37-54: the handler as far as `light` goes.  Line 38 resets `light`,
whatever it held, and the loop counts from there. -/
def WDT_vect (pin : Nat → Bool) (fuel : Nat) (_light : Nat) : Option (Nat × Nat) :=
  countLoop pin fuel 0 0

/-! ## The machine state of `main` -/

/-- What the source takes from `<avr/io.h>`, which is not part of the
repository: the bit positions it passes to `_BV` (all in 8-bit registers) and
the width of the compare registers `OCR0A`/`OCR0B` (`duty16 = false`: 8 bits,
`duty16 = true`: 16 bits). -/
structure Device where
  COM0A1 : Fin 8
  COM0B1 : Fin 8
  WGM00 : Fin 8
  CS00 : Fin 8
  WGM02 : Fin 8
  duty16 : Bool
deriving DecidableEq

/-- The registers and variables that `main` reads and writes.  `OCR0A` is
`LED1_PWM` and `OCR0B` is `LED2_PWM`. -/
structure Candle where
  TCCR0A : Nat
  TCCR0B : Nat
  OCR0A : Nat
  OCR0B : Nat
  PORTB : Nat
  led1_step : Int
  led2_step : Int
  led1_final : Nat
  led2_final : Nat
  lowBatteryCount : Nat
  rand_value : Nat
  state : Nat
deriving DecidableEq

/-- What one pass of the loop reads from outside: the battery pin
(`PINB & _BV(BATTERY)`) and the value of the volatile `light`, taken to be the
same at each of its reads within one pass. -/
structure Inputs where
  battery : Bool
  light : Nat
deriving DecidableEq

/-- The points of a pass at which time passes or the PRNG is seeded, each with
the machine state as it stands there: `start` after lines 116-120, `delay ms`
at a `_delay_ms(ms)`, `sleep` at `sleep_cpu()`. -/
inductive Event where
  | start (c : Candle)
  | delay (ms : Nat) (c : Candle)
  | sleep (c : Candle)
deriving DecidableEq

/-- The machine state recorded with an event. -/
def Event.candle : Event → Candle
  | Event.start c => c
  | Event.delay _ c => c
  | Event.sleep c => c

/-- Whether an event is the `start` of lines 116-120. -/
def Event.isStart : Event → Bool
  | Event.start _ => true
  | _ => false

/-- `#define LED1 0`. -/
def LED1 : Nat := 0

/-- `#define LED2 1`. -/
def LED2 : Nat := 1

/-- `_BV(bit)`, that is `1 << bit`. -/
def _BV (bit : Nat) : Nat := 1 <<< bit

/-- `reg &= ~_BV(bit)` on an 8-bit register. -/
def clearBit (reg bit : Nat) : Nat := reg &&& (0xFF ^^^ _BV bit)

/-- Line 118: `_BV(COM0A1) | _BV(COM0B1) | _BV(WGM00)`. -/
def tccr0aOn (dev : Device) : Nat :=
  _BV dev.COM0A1 ||| _BV dev.COM0B1 ||| _BV dev.WGM00

/-- Line 119: `_BV(CS00) | _BV(WGM02)`. -/
def tccr0bOn (dev : Device) : Nat :=
  _BV dev.CS00 ||| _BV dev.WGM02

/-- The modulus of a compare register. -/
def dutyMod (dev : Device) : Nat := if dev.duty16 then 65536 else 256

/-- The store of an `int` into an `int8_t`: the low byte, read as signed. -/
def toInt8 (x : Int) : Int := (x + 128) % 256 - 128

/-- Lines 140-141: `(final - PWM) >> BIT_SHIFT` stored in an `int8_t`.  With an
8-bit compare register both operands promote to `int` and the shift is
arithmetic; with a 16-bit one the difference is taken in `unsigned int`
(modulo `2^16`) and the shift is logical. -/
def ledStep (dev : Device) (final pwm : Nat) : Int :=
  toInt8 ((if dev.duty16 then ((final : Int) - (pwm : Int)) % 65536
           else (final : Int) - (pwm : Int)) >>> BIT_SHIFT)

/-- Lines 143-144: `PWM += step`, the sum cut to the width of the register. -/
def dutyAdd (dev : Device) (pwm : Nat) (step : Int) : Nat :=
  (((pwm : Int) + step) % (dutyMod dev : Int)).toNat

/-- Lines 105-108 and 125-128: stop the timer and clear the two LED bits. -/
def timerStop (c : Candle) : Candle :=
  let c := { c with TCCR0B := 0 }
  let c := { c with TCCR0A := 0 }
  let c := { c with PORTB := clearBit c.PORTB LED1 }
  { c with PORTB := clearBit c.PORTB LED2 }

/-- Lines 86-101: the battery counter and the mode. -/
def sample (c : Candle) (i : Inputs) : Candle :=
  let c := { c with lowBatteryCount := batteryUpdate i.battery c.lowBatteryCount }
  { c with state := modeUpdate c.state i.light }

/-- Lines 104-113: the OFF branch. -/
def powerDown (c : Candle) : Candle × List Event :=
  let c := if c.TCCR0B ≠ 0 then timerStop c else c
  (c, [Event.sleep c])

/-- Lines 115-121: start the timer when it is not running. -/
def wake (dev : Device) (c : Candle) (light : Nat) : Candle × List Event :=
  if c.TCCR0B = 0 then
    let c := { c with OCR0A := 0 }
    let c := { c with OCR0B := 0 }
    let c := { c with TCCR0A := tccr0aOn dev }
    let c := { c with TCCR0B := tccr0bOn dev }
    let c := { c with rand_value := light }
    (c, [Event.start c])
  else (c, [])

/-- Lines 123-131: the low-battery flash. -/
def lowBatteryFlash (c : Candle) : Candle × List Event :=
  let c1 := { c with OCR0A := PWM_MIN }
  let c2 := timerStop c1
  (c2, [Event.delay 25 c1, Event.sleep c2])

/-- Lines 143-145: one pass of the stepping loop. -/
def rampStep (dev : Device) (c : Candle) : Candle × Event :=
  let c := { c with OCR0B := dutyAdd dev c.OCR0B c.led2_step }
  let c := { c with OCR0A := dutyAdd dev c.OCR0A c.led1_step }
  (c, Event.delay (CYCLE_MS >>> BIT_SHIFT) c)

/-- Lines 142-146: `n` passes of the stepping loop. -/
def rampLoop (dev : Device) : Nat → Candle → Candle × List Event
  | 0, c => (c, [])
  | n + 1, c =>
    let r := rampStep dev c
    let rs := rampLoop dev n r.1
    (rs.1, r.2 :: rs.2)

/-- Lines 135-149: one flicker cycle. -/
def flicker (dev : Device) (c : Candle) : Candle × List Event :=
  let c := { c with rand_value := randNext c.rand_value }
  let c := { c with led2_final := c.led1_final }
  let c := { c with led1_final := newTarget c.rand_value }
  let c := { c with led2_step := ledStep dev c.led2_final c.OCR0B }
  let c := { c with led1_step := ledStep dev c.led1_final c.OCR0A }
  let r := rampLoop dev (STEPS - 1) c
  let c := { r.1 with OCR0B := r.1.led2_final % dutyMod dev }
  let c := { c with OCR0A := c.led1_final % dutyMod dev }
  (c, r.2 ++ [Event.delay (CYCLE_MS >>> BIT_SHIFT) c])

/-- Lines 86-151: one pass of the endless loop of `main`. -/
def loopBody (dev : Device) (c : Candle) (i : Inputs) : Candle × List Event :=
  let c := sample c i
  if c.state = OFF then powerDown c
  else
    let w := wake dev c i.light
    if w.1.lowBatteryCount > 100 then
      let r := lowBatteryFlash w.1
      (r.1, w.2 ++ r.2)
    else
      let r := flicker dev w.1
      (r.1, w.2 ++ r.2)

/-- The state when `main` enters its loop: the zero-initialised globals, the
timer registers and `PORTB` at their reset value 0, `state = OFF`, and the
local `rand_value` with whatever it happens to hold. -/
def powerOn (junk : Nat) : Candle :=
  { TCCR0A := 0, TCCR0B := 0, OCR0A := 0, OCR0B := 0, PORTB := 0,
    led1_step := 0, led2_step := 0, led1_final := 0, led2_final := 0,
    lowBatteryCount := 0, rand_value := junk, state := OFF }

/-- The state after the passes of the loop that read the given inputs. -/
def run (dev : Device) (c : Candle) : List Inputs → Candle
  | [] => c
  | i :: is => run dev (loopBody dev c i).1 is

/-- A state at the top of the loop in some execution from power-on. -/
def Reachable (dev : Device) (c : Candle) : Prop :=
  ∃ (junk : Nat) (ins : List Inputs), run dev (powerOn junk) ins = c

/-- One flicker cycle of a single channel on its own: the step of lines
140-141, the seven additions of lines 142-146 and the assignment of lines
147-148; the result is the list of the eight values the register takes. -/
def channelCycle (dev : Device) (pwm final : Nat) : List Nat :=
  let step := ledStep dev final pwm
  ((List.range (STEPS - 1)).map (fun k => (fun p => dutyAdd dev p step)^[k + 1] pwm))
    ++ [final % dutyMod dev]

/-- The ATtiny10 values of `<avr/io.h>` with an 8-bit compare register. -/
def attiny10 : Device :=
  { COM0A1 := 7, COM0B1 := 5, WGM00 := 0, CS00 := 0, WGM02 := 3, duty16 := false }

/-- The inputs of the first `n` passes when the battery pin reads high at every
pass and `light` reads `Ls k` at pass number `k` (counted from 0). -/
def heldLow (Ls : Nat → Nat) (n : Nat) : List Inputs :=
  (List.range n).map (fun k => { battery := true, light := Ls k })

/-- Whether an event is a `sleep_cpu()`. -/
def Event.isSleep : Event → Bool
  | Event.sleep _ => true
  | _ => false

/-- The value of a duty register after `k` additions of `step`, taken over the
integers, with no reduction to the width of the register. -/
def rampValue (pwm : Nat) (step : Int) (k : Nat) : Int :=
  (pwm : Int) + (k : Int) * step

/-- What holds of the machine state at the top of every pass of the loop. -/
def LoopInv (c : Candle) : Prop :=
  (c.state = OFF ∨ c.state = ON) ∧
  (c.state = OFF → c.TCCR0B = 0) ∧
  (c.TCCR0B = 0 → c.TCCR0A = 0) ∧
  (c.PORTB.testBit LED1 = false ∧ c.PORTB.testBit LED2 = false) ∧
  (c.led1_final = 0 ∨ (128 ≤ c.led1_final ∧ c.led1_final ≤ 254)) ∧
  (c.led2_final = 0 ∨ (128 ≤ c.led2_final ∧ c.led2_final ≤ 254)) ∧
  (c.TCCR0B ≠ 0 →
    c.OCR0A = c.led1_final ∧ c.OCR0B = c.led2_final ∧ 128 ≤ c.led1_final)

/-! ## Helper lemmas -/

theorem modeUpdate_band (state L : Nat) (h1 : 400 < L) (h2 : L < 1200) :
    modeUpdate state L = state := by
  unfold modeUpdate TURN_ON TURN_OFF
  rw [if_neg (by omega), if_neg (by omega)]

theorem batteryUpdate_le (b : Bool) (c : Nat) : batteryUpdate b c ≤ 254 := by
  unfold batteryUpdate
  cases b
  · simp
  · simp only [if_true]
    split <;> omega

theorem batteryUpdate_true_of_lt (c : Nat) (h : c < 254) :
    batteryUpdate true c = c + 1 := by
  unfold batteryUpdate
  simp only [if_true]
  rw [Nat.mod_eq_of_lt (by omega), if_neg (by omega)]

theorem batteryUpdate_true_254 : batteryUpdate true 254 = 254 := by decide

theorem lor_PWM_MIN (x : Nat) (h : x < 127) : x ||| PWM_MIN = x + 128 := by
  unfold PWM_MIN
  interval_cases x <;> rfl

theorem targetWord_eq (r : Nat) : targetWord r = r % 127 + 128 := by
  unfold targetWord
  exact lor_PWM_MIN _ (Nat.mod_lt _ (by decide))

theorem newTarget_eq (r : Nat) : newTarget r = r % 127 + 128 := by
  have h := targetWord_eq r
  have hlt : r % 127 < 127 := Nat.mod_lt _ (by decide)
  unfold newTarget
  rw [Nat.mod_eq_of_lt (by omega), h]

theorem newTarget_lt (r : Nat) : newTarget r < 256 := by
  have h := newTarget_eq r
  have hlt : r % 127 < 127 := Nat.mod_lt _ (by decide)
  omega

theorem randNext_eq (s : Nat) : randNext s = (s * 214013 + 2531011) % 2 ^ 31 := by
  unfold randNext RAND_MAX_32
  rw [Nat.one_shiftLeft, Nat.and_pow_two_sub_one_eq_mod, Nat.mod_add_mod,
    Nat.mod_mod_of_dvd _ (by norm_num : 2 ^ 31 ∣ 2 ^ 32)]

/-! ## Claims C1-C5 -/

/-- C1: a reading strictly between `TURN_OFF` (400) and `TURN_ON` (1200) leaves
`state` as it was, and so does any finite sequence of such readings. -/
theorem C1_hysteresis_band (state L : Nat) (Ls : List Nat)
    (hL : 400 < L ∧ L < 1200) (hLs : ∀ x ∈ Ls, 400 < x ∧ x < 1200) :
    modeUpdate state L = state ∧ Ls.foldl modeUpdate state = state := by
  refine ⟨modeUpdate_band state L hL.1 hL.2, ?_⟩
  induction Ls with
  | nil => rfl
  | cons x xs ih =>
    have hx := hLs x (List.mem_cons_self x xs)
    rw [List.foldl_cons, modeUpdate_band state x hx.1 hx.2]
    exact ih (fun y hy => hLs y (List.mem_cons_of_mem x hy))

theorem C1_hysteresis_band_witness :
    modeUpdate ON 800 = ON ∧ [401, 800, 1199].foldl modeUpdate ON = ON :=
  C1_hysteresis_band ON 800 [401, 800, 1199] (by decide) (by decide)

/-- C2: whatever the prior `state`, a reading `L <= 400` gives `OFF` and a
reading `L >= 1200` gives `ON`; the boundaries 400 and 1200 are included. -/
theorem C2_threshold_forcing (state L : Nat) :
    (L ≤ 400 → modeUpdate state L = OFF) ∧ (1200 ≤ L → modeUpdate state L = ON) := by
  unfold modeUpdate TURN_ON TURN_OFF
  constructor
  · intro h
    rw [if_pos h]
  · intro h
    rw [if_neg (by omega), if_pos (by omega)]

theorem C2_threshold_forcing_witness :
    modeUpdate ON 400 = OFF ∧ modeUpdate OFF 1200 = ON :=
  ⟨(C2_threshold_forcing ON 400).1 (by decide),
   (C2_threshold_forcing OFF 1200).2 (by decide)⟩

/-- C3: from `lowBatteryCount = 0`, `N` iterations with the battery input
asserted leave the counter at `min N 254`; an iteration with the input not
asserted leaves 0 whatever the prior value; after any sequence of inputs the
counter is at most 254, so the next 8-bit increment does not wrap. -/
theorem C3_battery_debounce :
    (∀ N : Nat, (batteryUpdate true)^[N] 0 = min N 254) ∧
    (∀ c : Nat, batteryUpdate false c = 0) ∧
    (∀ pins : List Bool,
      pins.foldl (fun c b => batteryUpdate b c) 0 ≤ 254 ∧
      pins.foldl (fun c b => batteryUpdate b c) 0 + 1 < 256) := by
  refine ⟨?_, fun c => rfl, ?_⟩
  · intro N
    induction N with
    | zero => rfl
    | succ n ih =>
      rw [Function.iterate_succ_apply', ih]
      by_cases h : n < 254
      · rw [Nat.min_eq_left (by omega), batteryUpdate_true_of_lt n h,
          Nat.min_eq_left (by omega)]
      · rw [Nat.min_eq_right (by omega), batteryUpdate_true_254,
          Nat.min_eq_right (by omega)]
  · intro pins
    have h : pins.foldl (fun c b => batteryUpdate b c) 0 ≤ 254 := by
      induction pins using List.reverseRecOn with
      | nil => simp
      | append_singleton xs x _ =>
        rw [List.foldl_append]
        exact batteryUpdate_le _ _
    exact ⟨h, by omega⟩

/-- C4: for every PRNG state `r` (in particular every `r < 2^31`) the new
channel-1 target `(r mod 127) | 0x80` lies in [128, 254], equals
`(r mod 127) + 128`, and the store to the 8-bit `led1_final` loses nothing. -/
theorem C4_target_range (r : Nat) :
    128 ≤ newTarget r ∧ newTarget r ≤ 254 ∧ newTarget r = r % 127 + 128 ∧
    newTarget r = targetWord r := by
  have h := targetWord_eq r
  have hlt : r % 127 < 127 := Nat.mod_lt _ (by decide)
  have hs : newTarget r = targetWord r := by
    unfold newTarget
    exact Nat.mod_eq_of_lt (by omega)
  rw [hs]
  omega

/-- C5: the wrapping 32-bit computation `(s * 214013 + 2531011) & (2^31 - 1)`
equals `(s * 214013 + 2531011) mod 2^31` over the naturals, hence is below
`2^31`. -/
theorem C5_prng_recurrence (s : Nat) :
    randNext s = (s * 214013 + 2531011) % 2 ^ 31 ∧ randNext s < 2 ^ 31 := by
  rw [randNext_eq s]
  exact ⟨rfl, Nat.mod_lt _ (by norm_num)⟩

/-! ## The light measurement: lemmas -/

theorem countLoop_total (pin : Nat → Bool) :
    ∀ fuel poll light : Nat, light ≤ 2800 → 2801 - light < fuel →
      ∃ L, countLoop pin fuel poll light = some (L, poll + (L - light)) ∧
        light ≤ L ∧ L ≤ 2801 := by
  intro fuel
  induction fuel with
  | zero => intro poll light _ h; omega
  | succ f ih =>
    intro poll light hl hf
    unfold countLoop
    by_cases hp : pin poll = true
    · rw [if_pos hp]
      have hm : (light + 1) % 65536 = light + 1 := Nat.mod_eq_of_lt (by omega)
      simp only [hm, TURN_ON_x3, TURN_OFF]
      by_cases hc : light + 1 > 400 + 800 * 3
      · rw [if_pos hc]
        exact ⟨light + 1, by congr 2; omega, by omega, by omega⟩
      · rw [if_neg hc]
        obtain ⟨L, h1, h2, h3⟩ := ih (poll + 1) (light + 1) (by omega) (by omega)
        refine ⟨L, ?_, by omega, h3⟩
        rw [h1]
        congr 2
        omega
    · rw [if_neg hp]
      exact ⟨light, by simp, le_refl _, by omega⟩

theorem countLoop_high_first (pin : Nat → Bool) :
    ∀ k fuel poll light : Nat, light ≤ 2800 → k < fuel →
      (∀ i, i < k → pin (poll + i) = true) → pin (poll + k) = false →
      countLoop pin fuel poll light
        = some (min (light + k) 2801, poll + min k (2801 - light)) := by
  intro k
  induction k with
  | zero =>
    intro fuel poll light _ hf _ hlow
    obtain ⟨f, rfl⟩ : ∃ f, fuel = f + 1 := ⟨fuel - 1, by omega⟩
    unfold countLoop
    rw [Nat.add_zero] at hlow
    rw [hlow]
    simp only [Bool.false_eq_true, if_false, Nat.add_zero, Nat.zero_min]
    congr 2
    omega
  | succ k ih =>
    intro fuel poll light hl hf hhigh hlow
    obtain ⟨f, rfl⟩ : ∃ f, fuel = f + 1 := ⟨fuel - 1, by omega⟩
    unfold countLoop
    have h0 : pin poll = true := by simpa using hhigh 0 (by omega)
    rw [if_pos h0]
    have hm : (light + 1) % 65536 = light + 1 := Nat.mod_eq_of_lt (by omega)
    simp only [hm, TURN_ON_x3, TURN_OFF]
    by_cases hc : light + 1 > 400 + 800 * 3
    · rw [if_pos hc]
      congr 2 <;> omega
    · rw [if_neg hc]
      rw [ih f (poll + 1) (light + 1) (by omega) (by omega)
        (fun i hi => by
          have := hhigh (i + 1) (by omega)
          rwa [show poll + 1 + i = poll + (i + 1) by omega])
        (by rwa [show poll + 1 + k = poll + (k + 1) by omega])]
      congr 2 <;> omega

theorem countLoop_stuck_high (pin : Nat → Bool) (hpin : ∀ i, pin i = true) :
    ∀ fuel poll light : Nat, light ≤ 2800 → 2801 - light ≤ fuel →
      countLoop pin fuel poll light = some (2801, poll + (2801 - light)) := by
  intro fuel
  induction fuel with
  | zero => intro poll light _ h; omega
  | succ f ih =>
    intro poll light hl hf
    unfold countLoop
    rw [if_pos (hpin poll)]
    have hm : (light + 1) % 65536 = light + 1 := Nat.mod_eq_of_lt (by omega)
    simp only [hm, TURN_ON_x3, TURN_OFF]
    by_cases hc : light + 1 > 400 + 800 * 3
    · rw [if_pos hc]
      congr 2 <;> omega
    · rw [if_neg hc, ih (poll + 1) (light + 1) (by omega) (by omega)]
      congr 2
      omega

/-! ## Claims C7-C8 -/

/-- C7: for every sequence of sense-pin readings the counting loop of the
handler terminates (any fuel from 2802 on is enough) after at most 3600
increments; the `light` it leaves is at most 3600 and equals the number of
increments, so the 16-bit counter has not wrapped. -/
theorem C7_bounded_measurement (pin : Nat → Bool) (fuel light0 : Nat)
    (hfuel : 2802 ≤ fuel) :
    ∃ L n, WDT_vect pin fuel light0 = some (L, n) ∧
      n ≤ 3 * 1200 ∧ L ≤ 3 * 1200 ∧ L = n ∧ L < 65536 := by
  obtain ⟨L, h1, _, h3⟩ := countLoop_total pin fuel 0 0 (by omega) (by omega)
  refine ⟨L, L, ?_, by omega, by omega, rfl, by omega⟩
  unfold WDT_vect
  rw [h1]
  congr 2
  omega

theorem C7_bounded_measurement_witness :
    ∃ L n, WDT_vect (fun _ => true) 2802 0 = some (L, n) ∧
      n ≤ 3 * 1200 ∧ L ≤ 3 * 1200 ∧ L = n ∧ L < 65536 :=
  C7_bounded_measurement (fun _ => true) 2802 0 (by decide)

/-- C8: the handler does not count up to 3600.  The test `light > (TURN_ON*3)`
expands to `light > (400+800*3)`, so with the pin high on exactly the first
3000 polls the handler leaves `light = 2801`, not 3000, and with the pin stuck
high it leaves 2801, not 3601. -/
theorem C8_abort_point_is_2801 :
    TURN_ON_x3 = 2800 ∧
    WDT_vect (fun i => decide (i < 3000)) 3001 0 = some (2801, 2801) ∧
    WDT_vect (fun _ => true) 3602 0 = some (2801, 2801) := by
  refine ⟨rfl, ?_, ?_⟩
  · unfold WDT_vect
    rw [countLoop_high_first _ 3000 3001 0 0 (by omega) (by omega)
      (fun i hi => by simpa using hi) (by simp)]
    rfl
  · unfold WDT_vect
    rw [countLoop_stuck_high _ (fun _ => rfl) 3602 0 0 (by omega) (by omega)]

/-! ## The control loop: lemmas -/

theorem tccr0bOn_ne_zero (dev : Device) : tccr0bOn dev ≠ 0 := by
  have h : ∀ a b : Fin 8, (1 <<< a.val) ||| (1 <<< b.val) ≠ 0 := by decide
  exact h dev.CS00 dev.WGM02

theorem dutyMod_ge (dev : Device) : 256 ≤ dutyMod dev := by
  unfold dutyMod
  split <;> omega

theorem rampLoop_fst (dev : Device) :
    ∀ (n : Nat) (c : Candle), (rampLoop dev n c).1 =
      { c with
        OCR0B := (fun p => dutyAdd dev p c.led2_step)^[n] c.OCR0B,
        OCR0A := (fun p => dutyAdd dev p c.led1_step)^[n] c.OCR0A } := by
  intro n
  induction n with
  | zero => intro c; rfl
  | succ n ih =>
    intro c
    show (rampLoop dev n (rampStep dev c).1).1 = _
    rw [ih]
    rfl

theorem rampLoop_snd (dev : Device) :
    ∀ (n : Nat) (c : Candle), (rampLoop dev n c).2 =
      (List.range n).map
        (fun k => Event.delay (CYCLE_MS >>> BIT_SHIFT) (rampLoop dev (k + 1) c).1) := by
  intro n
  induction n with
  | zero => intro c; rfl
  | succ n ih =>
    intro c
    show (rampStep dev c).2 :: (rampLoop dev n (rampStep dev c).1).2 = _
    rw [ih, List.range_succ_eq_map, List.map_cons, List.map_map]
    rfl

theorem flicker_fst (dev : Device) (c : Candle) :
    (flicker dev c).1 =
      { c with
        rand_value := randNext c.rand_value,
        led2_final := c.led1_final,
        led1_final := newTarget (randNext c.rand_value),
        led2_step := ledStep dev c.led1_final c.OCR0B,
        led1_step := ledStep dev (newTarget (randNext c.rand_value)) c.OCR0A,
        OCR0B := c.led1_final % dutyMod dev,
        OCR0A := newTarget (randNext c.rand_value) % dutyMod dev } := by
  unfold flicker
  simp only [rampLoop_fst]

theorem flicker_OCR0A_trace (dev : Device) (c : Candle) :
    (flicker dev c).2.map (fun e => e.candle.OCR0A)
      = channelCycle dev c.OCR0A (newTarget (randNext c.rand_value)) := by
  unfold flicker channelCycle
  simp only [rampLoop_snd, rampLoop_fst, List.map_append, List.map_map]
  rfl

theorem flicker_OCR0B_trace (dev : Device) (c : Candle) :
    (flicker dev c).2.map (fun e => e.candle.OCR0B)
      = channelCycle dev c.OCR0B c.led1_final := by
  unfold flicker channelCycle
  simp only [rampLoop_snd, rampLoop_fst, List.map_append, List.map_map]
  rfl

theorem ON_ne_OFF : ON ≠ OFF := by decide

theorem sample_lowBatteryCount (c : Candle) (i : Inputs) :
    (sample c i).lowBatteryCount = batteryUpdate i.battery c.lowBatteryCount := rfl

theorem sample_state (c : Candle) (i : Inputs) :
    (sample c i).state = modeUpdate c.state i.light := rfl

theorem sample_state_dark (c : Candle) (i : Inputs) (h : 1200 ≤ i.light) :
    (sample c i).state = ON := by
  rw [sample_state]
  unfold modeUpdate TURN_ON TURN_OFF
  rw [if_neg (by omega), if_pos (by omega)]

theorem wake_of_stopped (dev : Device) (c : Candle) (light : Nat) (h : c.TCCR0B = 0) :
    wake dev c light =
      ({ c with OCR0A := 0, OCR0B := 0, TCCR0A := tccr0aOn dev,
                TCCR0B := tccr0bOn dev, rand_value := light },
       [Event.start { c with OCR0A := 0, OCR0B := 0, TCCR0A := tccr0aOn dev,
                             TCCR0B := tccr0bOn dev, rand_value := light }]) := by
  unfold wake
  rw [if_pos h]

theorem wake_of_running (dev : Device) (c : Candle) (light : Nat) (h : c.TCCR0B ≠ 0) :
    wake dev c light = (c, []) := by
  unfold wake
  rw [if_neg h]

theorem wake_TCCR0B (dev : Device) (c : Candle) (light : Nat) :
    (wake dev c light).1.TCCR0B ≠ 0 := by
  by_cases h : c.TCCR0B = 0
  · rw [wake_of_stopped dev c light h]
    exact tccr0bOn_ne_zero dev
  · rw [wake_of_running dev c light h]
    exact h

theorem wake_frame (dev : Device) (c : Candle) (light : Nat) :
    (wake dev c light).1.state = c.state ∧
    (wake dev c light).1.lowBatteryCount = c.lowBatteryCount := by
  by_cases h : c.TCCR0B = 0
  · rw [wake_of_stopped dev c light h]
    exact ⟨rfl, rfl⟩
  · rw [wake_of_running dev c light h]
    exact ⟨rfl, rfl⟩

theorem powerDown_frame (c : Candle) :
    (powerDown c).1.TCCR0B = 0 ∧ (powerDown c).1.lowBatteryCount = c.lowBatteryCount := by
  unfold powerDown
  by_cases h : c.TCCR0B = 0
  · rw [if_neg (not_not.mpr h)]
    exact ⟨h, rfl⟩
  · rw [if_pos h]
    exact ⟨rfl, rfl⟩

theorem loopBody_off (dev : Device) (c : Candle) (i : Inputs)
    (h : (sample c i).state = OFF) :
    loopBody dev c i = powerDown (sample c i) := by
  unfold loopBody
  simp only [h, if_true]

theorem loopBody_flash (dev : Device) (c : Candle) (i : Inputs)
    (h : (sample c i).state ≠ OFF) (hb : 100 < (sample c i).lowBatteryCount) :
    loopBody dev c i =
      ((lowBatteryFlash (wake dev (sample c i) i.light).1).1,
       (wake dev (sample c i) i.light).2
         ++ (lowBatteryFlash (wake dev (sample c i) i.light).1).2) := by
  have hw := (wake_frame dev (sample c i) i.light).2
  unfold loopBody
  simp only [h, if_false]
  rw [if_pos (by rw [hw]; exact hb)]

theorem loopBody_flicker (dev : Device) (c : Candle) (i : Inputs)
    (h : (sample c i).state ≠ OFF) (hb : (sample c i).lowBatteryCount ≤ 100) :
    loopBody dev c i =
      ((flicker dev (wake dev (sample c i) i.light).1).1,
       (wake dev (sample c i) i.light).2
         ++ (flicker dev (wake dev (sample c i) i.light).1).2) := by
  have hw := (wake_frame dev (sample c i) i.light).2
  unfold loopBody
  simp only [h, if_false]
  rw [if_neg (by rw [hw]; omega)]

theorem loopBody_lowBatteryCount (dev : Device) (c : Candle) (i : Inputs) :
    (loopBody dev c i).1.lowBatteryCount = batteryUpdate i.battery c.lowBatteryCount := by
  have hw := (wake_frame dev (sample c i) i.light).2
  by_cases h : (sample c i).state = OFF
  · rw [loopBody_off dev c i h, (powerDown_frame _).2, sample_lowBatteryCount]
  · by_cases hb : (sample c i).lowBatteryCount ≤ 100
    · rw [loopBody_flicker dev c i h hb, flicker_fst]
      exact hw
    · rw [loopBody_flash dev c i h (by omega)]
      exact hw

/-- At the top of the loop, `state = OFF` only with the timer stopped. -/
theorem loopBody_off_stopped (dev : Device) (c : Candle) (i : Inputs)
    (h : (loopBody dev c i).1.state = OFF) : (loopBody dev c i).1.TCCR0B = 0 := by
  have hw := (wake_frame dev (sample c i) i.light).1
  by_cases hs : (sample c i).state = OFF
  · rw [loopBody_off dev c i hs]
    exact (powerDown_frame _).1
  · exfalso
    apply hs
    by_cases hb : (sample c i).lowBatteryCount ≤ 100
    · rw [loopBody_flicker dev c i hs hb, flicker_fst] at h
      rw [← hw]
      exact h
    · rw [loopBody_flash dev c i hs (by omega)] at h
      rw [← hw]
      exact h

theorem run_append (dev : Device) :
    ∀ (xs ys : List Inputs) (c : Candle),
      run dev c (xs ++ ys) = run dev (run dev c xs) ys := by
  intro xs
  induction xs with
  | nil => intro ys c; rfl
  | cons x xs ih => intro ys c; exact ih ys _

theorem reachable_off_stopped (dev : Device) (c : Candle) (hr : Reachable dev c)
    (h : c.state = OFF) : c.TCCR0B = 0 := by
  obtain ⟨junk, ins, rfl⟩ := hr
  induction ins using List.reverseRecOn with
  | nil => rfl
  | append_singleton xs x _ =>
    rw [run_append] at h ⊢
    exact loopBody_off_stopped dev _ x h

theorem flicker_no_start (dev : Device) (c : Candle) :
    ∀ e ∈ (flicker dev c).2, e.isStart = false := by
  intro e he
  unfold flicker at he
  simp only [rampLoop_snd, List.mem_append, List.mem_map, List.mem_singleton] at he
  rcases he with ⟨k, _, rfl⟩ | rfl <;> rfl

/-- A pass that starts with the timer running, reads a dark `light` and finds
the battery counter at 100 or less is a flicker cycle on the sampled state. -/
theorem loopBody_running_flicker (dev : Device) (c : Candle) (i : Inputs)
    (ht : c.TCCR0B ≠ 0) (hl : 1200 ≤ i.light)
    (hb : batteryUpdate i.battery c.lowBatteryCount ≤ 100) :
    loopBody dev c i = flicker dev (sample c i) := by
  have hs : (sample c i).state ≠ OFF := by
    rw [sample_state_dark c i hl]
    exact ON_ne_OFF
  rw [loopBody_flicker dev c i hs hb, wake_of_running dev (sample c i) i.light ht]
  exact Prod.ext (Eq.refl _) (List.nil_append _)

theorem run_flicker (dev : Device) :
    ∀ (ins : List Inputs) (c : Candle), c.TCCR0B ≠ 0 →
      (∀ i ∈ ins, 1200 ≤ i.light) →
      (∀ pre i post, ins = pre ++ i :: post →
        (run dev c (pre ++ [i])).lowBatteryCount ≤ 100) →
      (run dev c ins).rand_value = randNext^[ins.length] c.rand_value ∧
      (∀ pre i post, ins = pre ++ i :: post →
        loopBody dev (run dev c pre) i = flicker dev (sample (run dev c pre) i)) := by
  intro ins
  induction ins with
  | nil =>
    intro c _ _ _
    refine ⟨rfl, ?_⟩
    intro pre i post h
    simp at h
  | cons j js ih =>
    intro c ht hl hb
    have hbj : batteryUpdate j.battery c.lowBatteryCount ≤ 100 := by
      have := hb [] j js rfl
      rwa [List.nil_append, run, run, loopBody_lowBatteryCount] at this
    have hstep := loopBody_running_flicker dev c j ht
      (hl j (List.mem_cons_self j js)) hbj
    have ht1 : (loopBody dev c j).1.TCCR0B ≠ 0 := by
      rw [hstep, flicker_fst]
      exact ht
    have hr1 : (loopBody dev c j).1.rand_value = randNext c.rand_value := by
      rw [hstep, flicker_fst]
      rfl
    obtain ⟨ih1, ih2⟩ := ih (loopBody dev c j).1 ht1
      (fun i hi => hl i (List.mem_cons_of_mem j hi))
      (fun pre i post h => hb (j :: pre) i post (by rw [h]; rfl))
    refine ⟨?_, ?_⟩
    · show (run dev (loopBody dev c j).1 js).rand_value = _
      rw [ih1, hr1, List.length_cons, Function.iterate_succ_apply]
    · intro pre i post h
      cases pre with
      | nil =>
        rw [List.nil_append] at h
        obtain ⟨rfl, _⟩ := List.cons.inj h
        exact hstep
      | cons p pre =>
        obtain ⟨rfl, h2⟩ := List.cons.inj h
        exact ih2 pre i post h2

theorem channelCycle_length (dev : Device) (pwm final : Nat) :
    (channelCycle dev pwm final).length = 8 := by
  unfold channelCycle
  simp [STEPS, BIT_SHIFT]

theorem channelCycle_last (dev : Device) (pwm final : Nat) (h : final ≤ 255) :
    (channelCycle dev pwm final)[7]? = some final := by
  have hm : final % dutyMod dev = final :=
    Nat.mod_eq_of_lt (by have := dutyMod_ge dev; omega)
  unfold channelCycle
  rw [hm, List.getElem?_append_right (by simp [STEPS, BIT_SHIFT])]
  simp [STEPS, BIT_SHIFT]

/-! ## Claim C6 -/

/-- C6: for `current` and `target` in [0, 255], one flicker cycle of a channel
(step `(target - current) >> 3`, seven additions, then the assignment) makes
eight assignments to the duty register and the eighth leaves it equal to
`target`; in `flicker` this is what happens to channel 2 with the previous
`led1_final` as target, and to channel 1 with the freshly drawn target. -/
theorem C6_exact_convergence (dev : Device) (current target : Nat)
    (_hc : current ≤ 255) (ht : target ≤ 255) :
    (channelCycle dev current target).length = 8 ∧
    (channelCycle dev current target)[7]? = some target ∧
    (∀ c : Candle, c.OCR0B = current → c.led1_final = target →
      (flicker dev c).2.map (fun e => e.candle.OCR0B) = channelCycle dev current target ∧
      (flicker dev c).1.OCR0B = target) ∧
    (∀ c : Candle, c.OCR0A = current →
      (flicker dev c).2.map (fun e => e.candle.OCR0A)
        = channelCycle dev current (newTarget (randNext c.rand_value)) ∧
      (channelCycle dev current (newTarget (randNext c.rand_value)))[7]?
        = some (newTarget (randNext c.rand_value)) ∧
      (flicker dev c).1.OCR0A = newTarget (randNext c.rand_value)) := by
  have hd := dutyMod_ge dev
  refine ⟨channelCycle_length dev current target,
    channelCycle_last dev current target ht, ?_, ?_⟩
  · intro c h1 h2
    refine ⟨by rw [flicker_OCR0B_trace, h1, h2], ?_⟩
    rw [flicker_fst]
    show c.led1_final % dutyMod dev = target
    rw [h2]
    exact Nat.mod_eq_of_lt (by omega)
  · intro c h1
    have hn := newTarget_lt (randNext c.rand_value)
    refine ⟨by rw [flicker_OCR0A_trace, h1],
      channelCycle_last dev current _ (by omega), ?_⟩
    rw [flicker_fst]
    show newTarget (randNext c.rand_value) % dutyMod dev = _
    exact Nat.mod_eq_of_lt (by omega)

theorem C6_exact_convergence_witness :
    (channelCycle attiny10 200 130).length = 8 ∧
    (channelCycle attiny10 200 130)[7]? = some 130 ∧
    (∀ c : Candle, c.OCR0B = 200 → c.led1_final = 130 →
      (flicker attiny10 c).2.map (fun e => e.candle.OCR0B) = channelCycle attiny10 200 130 ∧
      (flicker attiny10 c).1.OCR0B = 130) ∧
    (∀ c : Candle, c.OCR0A = 200 →
      (flicker attiny10 c).2.map (fun e => e.candle.OCR0A)
        = channelCycle attiny10 200 (newTarget (randNext c.rand_value)) ∧
      (channelCycle attiny10 200 (newTarget (randNext c.rand_value)))[7]?
        = some (newTarget (randNext c.rand_value)) ∧
      (flicker attiny10 c).1.OCR0A = newTarget (randNext c.rand_value)) :=
  C6_exact_convergence attiny10 200 130 (by decide) (by decide)

/-! ## Claims C9-C10 -/

theorem timerStop_PORTB (c : Candle) :
    (timerStop c).PORTB.testBit LED1 = false ∧ (timerStop c).PORTB.testBit LED2 = false := by
  have h1 : (0xFF ^^^ _BV LED1).testBit LED1 = false := by decide
  have h2 : (0xFF ^^^ _BV LED2).testBit LED2 = false := by decide
  show (clearBit (clearBit c.PORTB LED1) LED2).testBit LED1 = false ∧
    (clearBit (clearBit c.PORTB LED1) LED2).testBit LED2 = false
  unfold clearBit
  rw [Nat.testBit_and, Nat.testBit_and, Nat.testBit_and, h1, h2]
  simp

theorem heldLow_succ (Ls : Nat → Nat) (n : Nat) :
    heldLow Ls (n + 1) = heldLow Ls n ++ [{ battery := true, light := Ls n }] := by
  unfold heldLow
  rw [List.range_succ, List.map_append]
  rfl

theorem run_heldLow_succ (dev : Device) (c : Candle) (Ls : Nat → Nat) (n : Nat) :
    run dev c (heldLow Ls (n + 1))
      = (loopBody dev (run dev c (heldLow Ls n)) { battery := true, light := Ls n }).1 := by
  rw [heldLow_succ, run_append]
  rfl

theorem run_heldLow_count (dev : Device) (c : Candle) (Ls : Nat → Nat)
    (h0 : c.lowBatteryCount = 0) :
    ∀ n, n ≤ 254 → (run dev c (heldLow Ls n)).lowBatteryCount = n := by
  intro n
  induction n with
  | zero => intro _; exact h0
  | succ n ih =>
    intro hn
    rw [run_heldLow_succ, loopBody_lowBatteryCount, ih (by omega)]
    exact batteryUpdate_true_of_lt n (by omega)

theorem run_heldLow_running (dev : Device) (c : Candle) (Ls : Nat → Nat)
    (h0 : c.lowBatteryCount = 0) (hL : ∀ k, 1200 ≤ Ls k) :
    ∀ n, n < 100 → (run dev c (heldLow Ls (n + 1))).TCCR0B ≠ 0 := by
  intro n hn
  have hs : (sample (run dev c (heldLow Ls n)) { battery := true, light := Ls n }).state ≠ OFF := by
    rw [sample_state_dark _ _ (hL n)]
    exact ON_ne_OFF
  have hb : (sample (run dev c (heldLow Ls n))
      { battery := true, light := Ls n }).lowBatteryCount ≤ 100 := by
    rw [sample_lowBatteryCount, run_heldLow_count dev c Ls h0 n (by omega),
      batteryUpdate_true_of_lt n (by omega)]
    omega
  rw [run_heldLow_succ, loopBody_flicker dev _ _ hs hb, flicker_fst]
  exact wake_TCCR0B dev _ _

/-- C9: in a reachable state with `state = OFF`, a pass that reads `L >= 1200`
with the battery counter staying at 100 or less runs lines 116-120 (both duty
registers 0, timer started, `rand_value = L`, recorded as `start c0`) and then
one flicker cycle from `c0`: the mode is ON, the timer runs, the PRNG is
advanced once from `L` and channel 1 ends at
`(((L * 214013 + 2531011) mod 2^31) mod 127) | 0x80`.  Every following pass
that reads a dark `light` with the battery counter at 100 or less is a flicker
cycle on the state as it stands, with no `start`: no reset of the channels and
no new seed, so the PRNG state after `n` such passes is `randNext` applied
`n` times to `randNext L`. -/
theorem C9_activation (dev : Device) (c : Candle) (b : Bool) (L : Nat)
    (hreach : Reachable dev c) (hoff : c.state = OFF) (hL : 1200 ≤ L)
    (hbat : batteryUpdate b c.lowBatteryCount ≤ 100) :
    ∃ c0 c1 : Candle,
      c0 = { sample c { battery := b, light := L } with
             OCR0A := 0, OCR0B := 0, TCCR0A := tccr0aOn dev,
             TCCR0B := tccr0bOn dev, rand_value := L } ∧
      c1 = (flicker dev c0).1 ∧
      loopBody dev c { battery := b, light := L }
        = (c1, Event.start c0 :: (flicker dev c0).2) ∧
      c0.state = ON ∧ c0.TCCR0B ≠ 0 ∧ c0.OCR0A = 0 ∧ c0.OCR0B = 0 ∧
      c0.rand_value = L ∧
      c1.state = ON ∧ c1.TCCR0B ≠ 0 ∧ c1.rand_value = randNext L ∧
      c1.OCR0A = ((L * 214013 + 2531011) % 2 ^ 31 % 127) ||| 0x80 ∧
      (∀ ins : List Inputs, (∀ i ∈ ins, 1200 ≤ i.light) →
        (∀ pre i post, ins = pre ++ i :: post →
          (run dev c1 (pre ++ [i])).lowBatteryCount ≤ 100) →
        (run dev c1 ins).rand_value = randNext^[ins.length] (randNext L) ∧
        (∀ pre i post, ins = pre ++ i :: post →
          loopBody dev (run dev c1 pre) i = flicker dev (sample (run dev c1 pre) i) ∧
          ∀ e ∈ (loopBody dev (run dev c1 pre) i).2, e.isStart = false)) := by
  have ht : (sample c { battery := b, light := L }).TCCR0B = 0 :=
    reachable_off_stopped dev c hreach hoff
  have hon : (sample c { battery := b, light := L }).state = ON :=
    sample_state_dark c _ hL
  have hs : (sample c { battery := b, light := L }).state ≠ OFF := by
    rw [hon]
    exact ON_ne_OFF
  have hstep := loopBody_flicker dev c { battery := b, light := L } hs hbat
  rw [wake_of_stopped dev _ L ht] at hstep
  have hd := dutyMod_ge dev
  have hn := newTarget_lt (randNext L)
  refine ⟨_, _, rfl, rfl, hstep, hon, tccr0bOn_ne_zero dev, rfl, rfl, rfl, ?_, ?_, ?_, ?_, ?_⟩
  · rw [flicker_fst]
    exact hon
  · rw [flicker_fst]
    exact tccr0bOn_ne_zero dev
  · rw [flicker_fst]
  · rw [flicker_fst]
    show newTarget (randNext L) % dutyMod dev = _
    rw [Nat.mod_eq_of_lt (by omega), ← randNext_eq L]
    unfold newTarget
    exact Nat.mod_eq_of_lt (by
      have := targetWord_eq (randNext L)
      have := Nat.mod_lt (randNext L) (by decide : 0 < 127)
      omega)
  · intro ins hl hb
    have hrun := run_flicker dev ins _
      (by rw [flicker_fst]; exact tccr0bOn_ne_zero dev) hl hb
    refine ⟨by rw [hrun.1, flicker_fst], ?_⟩
    intro pre i post h
    have h2 := hrun.2 pre i post h
    refine ⟨h2, ?_⟩
    rw [h2]
    exact flicker_no_start dev _

theorem C9_activation_witness :
    (loopBody attiny10 (powerOn 0) { battery := false, light := 4000 }).1.OCR0A = 147 ∧
    (loopBody attiny10 (powerOn 0) { battery := false, light := 4000 }).1.state = ON := by
  obtain ⟨c0, c1, _, _, h3, _, _, _, _, _, h9, _, _, h12, _⟩ :=
    C9_activation attiny10 (powerOn 0) false 4000 ⟨0, [], rfl⟩ rfl (by decide) (by decide)
  rw [h3]
  exact ⟨h12, h9⟩

/-- C10: from a state with `lowBatteryCount = 0`, with the battery input
asserted and `light >= 1200` at every pass, each of the passes 1 to 100 runs a
flicker cycle (after the start of lines 116-120 when the timer was stopped) and
advances the PRNG, with the counter at the number of the pass; the pass 101
finds the counter at 101 and takes the low-battery branch: channel 1 at `0x80`
during the 25 ms hold with the timer still on, then `TCCR0A = TCCR0B = 0`, both
LED bits of `PORTB` clear, and sleep, with `rand_value`, `led1_final` and
`led2_final` as they were. -/
theorem C10_low_battery_trigger (dev : Device) (c : Candle) (Ls : Nat → Nat)
    (h0 : c.lowBatteryCount = 0) (hL : ∀ k, 1200 ≤ Ls k) :
    (∀ n, n < 100 →
      ∃ s : Candle, ∃ w : Candle × List Event,
        s = sample (run dev c (heldLow Ls n)) { battery := true, light := Ls n } ∧
        w = wake dev s (Ls n) ∧
        s.lowBatteryCount = n + 1 ∧ s.state = ON ∧
        loopBody dev (run dev c (heldLow Ls n)) { battery := true, light := Ls n }
          = ((flicker dev w.1).1, w.2 ++ (flicker dev w.1).2) ∧
        (run dev c (heldLow Ls (n + 1))).rand_value = randNext w.1.rand_value) ∧
    (∃ s c1 c2 : Candle,
      s = sample (run dev c (heldLow Ls 100)) { battery := true, light := Ls 100 } ∧
      c1 = { s with OCR0A := PWM_MIN } ∧
      c2 = timerStop c1 ∧
      s.lowBatteryCount = 101 ∧ s.state = ON ∧
      loopBody dev (run dev c (heldLow Ls 100)) { battery := true, light := Ls 100 }
        = (c2, [Event.delay 25 c1, Event.sleep c2]) ∧
      c1.OCR0A = 0x80 ∧ c1.TCCR0B ≠ 0 ∧
      c2.TCCR0A = 0 ∧ c2.TCCR0B = 0 ∧
      c2.PORTB.testBit LED1 = false ∧ c2.PORTB.testBit LED2 = false ∧
      c2.rand_value = (run dev c (heldLow Ls 100)).rand_value ∧
      c2.led1_final = (run dev c (heldLow Ls 100)).led1_final ∧
      c2.led2_final = (run dev c (heldLow Ls 100)).led2_final) := by
  constructor
  · intro n hn
    have hon : (sample (run dev c (heldLow Ls n))
        { battery := true, light := Ls n }).state = ON := sample_state_dark _ _ (hL n)
    have hcnt : (sample (run dev c (heldLow Ls n))
        { battery := true, light := Ls n }).lowBatteryCount = n + 1 := by
      rw [sample_lowBatteryCount, run_heldLow_count dev c Ls h0 n (by omega)]
      exact batteryUpdate_true_of_lt n (by omega)
    have hstep := loopBody_flicker dev (run dev c (heldLow Ls n))
      { battery := true, light := Ls n } (by rw [hon]; exact ON_ne_OFF) (by omega)
    refine ⟨_, _, rfl, rfl, hcnt, hon, hstep, ?_⟩
    rw [run_heldLow_succ, hstep, flicker_fst]
  · have hon : (sample (run dev c (heldLow Ls 100))
        { battery := true, light := Ls 100 }).state = ON := sample_state_dark _ _ (hL 100)
    have hcnt : (sample (run dev c (heldLow Ls 100))
        { battery := true, light := Ls 100 }).lowBatteryCount = 101 := by
      rw [sample_lowBatteryCount, run_heldLow_count dev c Ls h0 100 (by omega)]
      exact batteryUpdate_true_of_lt 100 (by omega)
    have hrun : (sample (run dev c (heldLow Ls 100))
        { battery := true, light := Ls 100 }).TCCR0B ≠ 0 :=
      run_heldLow_running dev c Ls h0 hL 99 (by omega)
    have hstep := loopBody_flash dev (run dev c (heldLow Ls 100))
      { battery := true, light := Ls 100 } (by rw [hon]; exact ON_ne_OFF) (by omega)
    rw [wake_of_running dev _ _ hrun] at hstep
    refine ⟨_, _, _, rfl, rfl, rfl, hcnt, hon, hstep, rfl, hrun, rfl, rfl,
      (timerStop_PORTB _).1, (timerStop_PORTB _).2, rfl, rfl, rfl⟩

theorem C10_low_battery_trigger_witness :
    (run attiny10 (powerOn 0) (heldLow (fun _ => 4000) 101)).TCCR0B = 0 ∧
    (run attiny10 (powerOn 0) (heldLow (fun _ => 4000) 101)).rand_value
      = (run attiny10 (powerOn 0) (heldLow (fun _ => 4000) 100)).rand_value := by
  obtain ⟨_, s, c1, c2, _, _, _, _, _, h6, _, _, _, h10, _, _, h13, _, _⟩ :=
    C10_low_battery_trigger attiny10 (powerOn 0) (fun _ => 4000) rfl
      (fun _ => (by decide : 1200 ≤ 4000))
  rw [run_heldLow_succ, h6]
  exact ⟨h10, h13⟩

/-! ## The step and the ramp: lemmas -/

theorem toInt8_of_small (x : Int) (h1 : -128 ≤ x) (h2 : x < 128) : toInt8 x = x := by
  unfold toInt8
  omega

theorem ledStep_eq (dev : Device) (final pwm : Nat) (hf : final ≤ 255) (hp : pwm ≤ 255) :
    ledStep dev final pwm = ((final : Int) - (pwm : Int)) / 8 := by
  unfold ledStep BIT_SHIFT
  rw [Int.shiftRight_eq_div_pow]
  cases dev.duty16
  · simp only [Bool.false_eq_true, if_false]
    unfold toInt8
    norm_num
    omega
  · simp only [if_true]
    unfold toInt8
    norm_num
    omega

theorem rampValue_bounds (final pwm k : Nat) (hk : k ≤ 7) :
    (min pwm final : Int) - 6 ≤ rampValue pwm (((final : Int) - (pwm : Int)) / 8) k ∧
    rampValue pwm (((final : Int) - (pwm : Int)) / 8) k ≤ (max pwm final : Int) := by
  unfold rampValue
  interval_cases k <;> omega

theorem rampValue_rising (final pwm k : Nat) (hk : k ≤ 7) (h : pwm ≤ final) :
    rampValue pwm (((final : Int) - (pwm : Int)) / 8) k
      ≤ rampValue pwm (((final : Int) - (pwm : Int)) / 8) (k + 1) ∧
    rampValue pwm (((final : Int) - (pwm : Int)) / 8) (k + 1) ≤ (final : Int) := by
  unfold rampValue
  interval_cases k <;> omega

theorem rampValue_falling (final pwm k : Nat) (hk : k ≤ 7) (h : final < pwm) :
    rampValue pwm (((final : Int) - (pwm : Int)) / 8) (k + 1)
      ≤ rampValue pwm (((final : Int) - (pwm : Int)) / 8) k ∧
    (final : Int) - 6 ≤ rampValue pwm (((final : Int) - (pwm : Int)) / 8) k := by
  unfold rampValue
  interval_cases k <;> omega

theorem dutyAdd_cast (dev : Device) (pwm : Nat) (step : Int)
    (h0 : 0 ≤ (pwm : Int) + step) (h1 : (pwm : Int) + step ≤ 255) :
    ((dutyAdd dev pwm step : Nat) : Int) = (pwm : Int) + step := by
  have hd := dutyMod_ge dev
  unfold dutyAdd
  rw [Int.emod_eq_of_lt h0 (by omega), Int.toNat_of_nonneg h0]

theorem dutyAdd_ramp (dev : Device) (pwm : Nat) (step : Int) :
    ∀ k : Nat, (∀ j, j ≤ k → 0 ≤ rampValue pwm step j ∧ rampValue pwm step j ≤ 255) →
      (((fun p => dutyAdd dev p step)^[k] pwm : Nat) : Int) = rampValue pwm step k := by
  intro k
  induction k with
  | zero =>
    intro _
    simp [rampValue]
  | succ k ih =>
    intro h
    have hk := ih (fun j hj => h j (by omega))
    have h1 := h (k + 1) (le_refl _)
    have hs : rampValue pwm step (k + 1) = rampValue pwm step k + step := by
      unfold rampValue
      push_cast
      ring
    rw [Function.iterate_succ_apply']
    show ((dutyAdd dev ((fun p => dutyAdd dev p step)^[k] pwm) step : Nat) : Int) = _
    rw [dutyAdd_cast dev _ step (by rw [hk, ← hs]; exact h1.1) (by rw [hk, ← hs]; exact h1.2),
      hk, hs]

/-! ## Claims C15 and C17 -/

/-- C15: for `current` and `target` in [0, 255] the step stored in the `int8_t`
is the floor of `(target - current) / 8` (division rounded toward negative
infinity: -1 when `target = current - 1`); it lies in [-32, 31], so the store
to the signed 8-bit variable loses nothing. -/
theorem C15_step_floor (dev : Device) (current target : Nat)
    (hc : current ≤ 255) (ht : target ≤ 255) :
    ledStep dev target current = ⌊((target : ℚ) - (current : ℚ)) / 8⌋ ∧
    ledStep dev target current = Int.fdiv ((target : Int) - (current : Int)) 8 ∧
    -32 ≤ ledStep dev target current ∧ ledStep dev target current ≤ 31 ∧
    toInt8 (((target : Int) - (current : Int)) >>> BIT_SHIFT)
      = ((target : Int) - (current : Int)) >>> BIT_SHIFT ∧
    (target + 1 = current → ledStep dev target current = -1) := by
  have h := ledStep_eq dev target current ht hc
  have hfl : ⌊((target : ℚ) - (current : ℚ)) / 8⌋ = ((target : Int) - (current : Int)) / 8 := by
    have := Rat.floor_intCast_div_natCast ((target : Int) - (current : Int)) 8
    push_cast at this
    exact this
  refine ⟨by rw [h, hfl], ?_, by rw [h]; omega, by rw [h]; omega, ?_, ?_⟩
  · rw [h, Int.fdiv_eq_ediv _ (by norm_num)]
  · unfold BIT_SHIFT
    rw [Int.shiftRight_eq_div_pow]
    apply toInt8_of_small <;> norm_num <;> omega
  · intro h1
    rw [h]
    omega

theorem C15_step_floor_witness :
    ledStep attiny10 129 130 = ⌊((129 : ℚ) - (130 : ℚ)) / 8⌋ ∧
    ledStep attiny10 129 130 = -1 := by
  have h := C15_step_floor attiny10 130 129 (by decide) (by decide)
  exact ⟨by exact_mod_cast h.1, h.2.2.2.2.2 rfl⟩

/-- C17: for `current` and `target` in [0, 255] and the step
`floor((target - current) / 8)`, each of the seven intermediate values
`current + k * step` (k = 1..7, over the integers) lies between
`min current target - 6` and `max current target`; a rising ramp is
non-decreasing and stays at or below the target, a falling ramp is
non-increasing and stays at or above `target - 6`, which it reaches at the
seventh value when `target = current - 1`. -/
theorem C17_interpolation_bounds (dev : Device) (current target k : Nat)
    (hc : current ≤ 255) (ht : target ≤ 255) (hk1 : 1 ≤ k) (hk7 : k ≤ 7) :
    (min current target : Int) - 6 ≤ rampValue current (ledStep dev target current) k ∧
    rampValue current (ledStep dev target current) k ≤ (max current target : Int) ∧
    (current ≤ target →
      rampValue current (ledStep dev target current) (k - 1)
        ≤ rampValue current (ledStep dev target current) k ∧
      rampValue current (ledStep dev target current) k ≤ (target : Int)) ∧
    (target < current →
      rampValue current (ledStep dev target current) k
        ≤ rampValue current (ledStep dev target current) (k - 1) ∧
      (target : Int) - 6 ≤ rampValue current (ledStep dev target current) k) ∧
    (target + 1 = current →
      rampValue current (ledStep dev target current) 7 = (target : Int) - 6) := by
  rw [ledStep_eq dev target current ht hc]
  obtain ⟨j, rfl⟩ : ∃ j, k = j + 1 := ⟨k - 1, by omega⟩
  have hb := rampValue_bounds target current (j + 1) hk7
  refine ⟨hb.1, hb.2, ?_, ?_, ?_⟩
  · intro h
    exact rampValue_rising target current j (by omega) h
  · intro h
    exact ⟨(rampValue_falling target current j (by omega) h).1,
      (rampValue_falling target current (j + 1) hk7 h).2⟩
  · intro h
    unfold rampValue
    omega

theorem C17_interpolation_bounds_witness :
    rampValue 130 (ledStep attiny10 129 130) 7 = 123 := by
  have h := C17_interpolation_bounds attiny10 130 129 7 (by decide) (by decide)
    (by decide) (by decide)
  rw [h.2.2.2.2 rfl]
  rfl

/-! ## The invariant of the loop -/

theorem modeUpdate_cases (state light : Nat) :
    modeUpdate state light = OFF ∨ modeUpdate state light = ON ∨
      modeUpdate state light = state := by
  unfold modeUpdate
  split
  · exact Or.inl rfl
  · split
    · exact Or.inr (Or.inl rfl)
    · exact Or.inr (Or.inr rfl)

theorem sample_state_cases (c : Candle) (i : Inputs)
    (h : c.state = OFF ∨ c.state = ON) :
    (sample c i).state = OFF ∨ (sample c i).state = ON := by
  rw [sample_state]
  rcases modeUpdate_cases c.state i.light with h1 | h1 | h1
  · exact Or.inl h1
  · exact Or.inr h1
  · rw [h1]
    exact h

theorem wake_keeps (dev : Device) (c : Candle) (light : Nat) :
    (wake dev c light).1.led1_final = c.led1_final ∧
    (wake dev c light).1.led2_final = c.led2_final ∧
    (wake dev c light).1.PORTB = c.PORTB := by
  by_cases h : c.TCCR0B = 0
  · rw [wake_of_stopped dev c light h]
    exact ⟨rfl, rfl, rfl⟩
  · rw [wake_of_running dev c light h]
    exact ⟨rfl, rfl, rfl⟩

theorem clearBit_testBit (reg bit k : Nat) (h : reg.testBit k = false) :
    (clearBit reg bit).testBit k = false := by
  unfold clearBit
  rw [Nat.testBit_and, h]
  rfl

theorem timerStop_keeps_clear (c : Candle) (k : Nat) (h : c.PORTB.testBit k = false) :
    (timerStop c).PORTB.testBit k = false :=
  clearBit_testBit _ _ _ (clearBit_testBit _ _ _ h)

theorem powerOn_inv (junk : Nat) : LoopInv (powerOn junk) := by
  have hz : ∀ k : Nat, (0 : Nat).testBit k = false := Nat.zero_testBit
  exact ⟨Or.inl rfl, fun _ => rfl, fun _ => rfl, ⟨hz LED1, hz LED2⟩,
    Or.inl rfl, Or.inl rfl, fun h => absurd rfl h⟩

theorem powerDown_inv (s : Candle) (hs : s.state = OFF) (hA : s.TCCR0B = 0 → s.TCCR0A = 0)
    (hP : s.PORTB.testBit LED1 = false ∧ s.PORTB.testBit LED2 = false)
    (h1 : s.led1_final = 0 ∨ (128 ≤ s.led1_final ∧ s.led1_final ≤ 254))
    (h2 : s.led2_final = 0 ∨ (128 ≤ s.led2_final ∧ s.led2_final ≤ 254)) :
    LoopInv (powerDown s).1 := by
  unfold powerDown
  by_cases h : s.TCCR0B = 0
  · rw [if_neg (not_not.mpr h)]
    exact ⟨Or.inl hs, fun _ => h, hA, hP, h1, h2, fun hn => absurd h hn⟩
  · rw [if_pos h]
    exact ⟨Or.inl hs, fun _ => rfl, fun _ => rfl,
      ⟨timerStop_keeps_clear s _ hP.1, timerStop_keeps_clear s _ hP.2⟩, h1, h2,
      fun hn => absurd rfl hn⟩

theorem lowBatteryFlash_inv (w : Candle) (hs : w.state = ON)
    (hP : w.PORTB.testBit LED1 = false ∧ w.PORTB.testBit LED2 = false)
    (h1 : w.led1_final = 0 ∨ (128 ≤ w.led1_final ∧ w.led1_final ≤ 254))
    (h2 : w.led2_final = 0 ∨ (128 ≤ w.led2_final ∧ w.led2_final ≤ 254)) :
    LoopInv (lowBatteryFlash w).1 :=
  ⟨Or.inr hs, fun _ => rfl, fun _ => rfl,
    ⟨timerStop_keeps_clear _ _ hP.1, timerStop_keeps_clear _ _ hP.2⟩, h1, h2,
    fun hn => absurd rfl hn⟩

theorem flicker_inv (dev : Device) (w : Candle) (hs : w.state = ON) (ht : w.TCCR0B ≠ 0)
    (hP : w.PORTB.testBit LED1 = false ∧ w.PORTB.testBit LED2 = false)
    (h1 : w.led1_final = 0 ∨ (128 ≤ w.led1_final ∧ w.led1_final ≤ 254)) :
    LoopInv (flicker dev w).1 := by
  have hd := dutyMod_ge dev
  have hn := newTarget_eq (randNext w.rand_value)
  have hm := Nat.mod_lt (randNext w.rand_value) (by decide : 0 < 127)
  rw [flicker_fst]
  refine ⟨Or.inr hs, fun h => absurd (hs.symm.trans h) ON_ne_OFF, fun h => absurd h ht,
    hP, Or.inr ⟨by show 128 ≤ newTarget _; omega, by show newTarget _ ≤ 254; omega⟩, h1,
    fun _ => ⟨?_, ?_, by show 128 ≤ newTarget _; omega⟩⟩
  · show newTarget (randNext w.rand_value) % dutyMod dev = newTarget (randNext w.rand_value)
    exact Nat.mod_eq_of_lt (by omega)
  · show w.led1_final % dutyMod dev = w.led1_final
    exact Nat.mod_eq_of_lt (by omega)

theorem loopBody_inv (dev : Device) (c : Candle) (i : Inputs) (h : LoopInv c) :
    LoopInv (loopBody dev c i).1 := by
  obtain ⟨hst, _, hA, hP, h1, h2, _⟩ := h
  have hw := wake_frame dev (sample c i) i.light
  have hk := wake_keeps dev (sample c i) i.light
  by_cases hs : (sample c i).state = OFF
  · rw [loopBody_off dev c i hs]
    exact powerDown_inv _ hs hA hP h1 h2
  · have hon : (sample c i).state = ON := by
      rcases sample_state_cases c i hst with h | h
      · exact absurd h hs
      · exact h
    by_cases hb : (sample c i).lowBatteryCount ≤ 100
    · rw [loopBody_flicker dev c i hs hb]
      exact flicker_inv dev _ (hw.1.trans hon) (wake_TCCR0B dev _ _)
        (by rw [hk.2.2]; exact hP) (by rw [hk.1]; exact h1)
    · rw [loopBody_flash dev c i hs (by omega)]
      exact lowBatteryFlash_inv _ (hw.1.trans hon) (by rw [hk.2.2]; exact hP)
        (by rw [hk.1]; exact h1) (by rw [hk.2.1]; exact h2)

theorem run_inv (dev : Device) :
    ∀ (ins : List Inputs) (c : Candle), LoopInv c → LoopInv (run dev c ins) := by
  intro ins
  induction ins with
  | nil => intro c h; exact h
  | cons x xs ih => intro c h; exact ih _ (loopBody_inv dev c x h)

theorem reachable_inv (dev : Device) (c : Candle) (h : Reachable dev c) : LoopInv c := by
  obtain ⟨junk, ins, rfl⟩ := h
  exact run_inv dev ins _ (powerOn_inv junk)

/-! ## Claims C11, C12 and C16 -/

theorem flicker_no_sleep (dev : Device) (c : Candle) :
    ∀ e ∈ (flicker dev c).2, e.isSleep = false := by
  intro e he
  unfold flicker at he
  simp only [rampLoop_snd, List.mem_append, List.mem_map, List.mem_singleton] at he
  rcases he with ⟨k, _, rfl⟩ | rfl <;> rfl

theorem flicker_length (dev : Device) (c : Candle) : (flicker dev c).2.length = 8 := by
  unfold flicker
  simp [rampLoop_snd, STEPS, BIT_SHIFT]

theorem wake_no_sleep (dev : Device) (c : Candle) (light : Nat) :
    ∀ e ∈ (wake dev c light).2, e.isSleep = false := by
  intro e he
  by_cases h : c.TCCR0B = 0
  · rw [wake_of_stopped dev c light h, List.mem_singleton] at he
    rw [he]
    rfl
  · rw [wake_of_running dev c light h] at he
    simp at he

theorem wake_rand_value (dev : Device) (c : Candle) (light : Nat) :
    (wake dev c light).1.rand_value = c.rand_value ∨
    (wake dev c light).1.rand_value = light := by
  by_cases h : c.TCCR0B = 0
  · rw [wake_of_stopped dev c light h]
    exact Or.inr rfl
  · rw [wake_of_running dev c light h]
    exact Or.inl rfl

theorem powerDown_keeps (c : Candle) :
    (powerDown c).2 = [Event.sleep (powerDown c).1] ∧
    (powerDown c).1.rand_value = c.rand_value ∧
    (powerDown c).1.led1_final = c.led1_final ∧
    (powerDown c).1.led2_final = c.led2_final := by
  unfold powerDown
  by_cases h : c.TCCR0B = 0
  · rw [if_neg (not_not.mpr h)]
    exact ⟨rfl, rfl, rfl, rfl⟩
  · rw [if_pos h]
    exact ⟨rfl, rfl, rfl, rfl⟩

/-- C11: in every pass from a reachable state the mode after its update is OFF
or ON, and exactly one of three branches runs.  With OFF the pass is the
power-down branch: timer registers 0 and one sleep.  With ON and the counter
above 100 it is the low-battery flash: channel 1 at `0x80` for 25 ms, timer
stopped, one sleep.  With ON and the counter at 100 or less it is one flicker
cycle of eight holds and no sleep.  Only in the third branch is the PRNG
advanced (`randNext`) and are the two targets assigned; in the other two the
targets are as before and `rand_value` is as before or the seed just read. -/
theorem C11_power_arbitration (dev : Device) (c : Candle) (i : Inputs)
    (hr : Reachable dev c) :
    ((sample c i).state = OFF ∨ (sample c i).state = ON) ∧
    ((sample c i).state = OFF →
      loopBody dev c i = powerDown (sample c i) ∧
      (loopBody dev c i).2 = [Event.sleep (loopBody dev c i).1] ∧
      (loopBody dev c i).1.TCCR0B = 0 ∧ (loopBody dev c i).1.TCCR0A = 0 ∧
      (loopBody dev c i).1.rand_value = c.rand_value ∧
      (loopBody dev c i).1.led1_final = c.led1_final ∧
      (loopBody dev c i).1.led2_final = c.led2_final) ∧
    ((sample c i).state = ON → 100 < (sample c i).lowBatteryCount →
      ∃ (w : Candle × List Event) (c1 : Candle),
        w = wake dev (sample c i) i.light ∧ c1 = { w.1 with OCR0A := PWM_MIN } ∧
        loopBody dev c i
          = (timerStop c1, w.2 ++ [Event.delay 25 c1, Event.sleep (timerStop c1)]) ∧
        (∀ e ∈ w.2, e.isSleep = false) ∧
        (timerStop c1).TCCR0B = 0 ∧ (timerStop c1).TCCR0A = 0 ∧
        (timerStop c1).rand_value = w.1.rand_value ∧
        (w.1.rand_value = c.rand_value ∨ w.1.rand_value = i.light) ∧
        (timerStop c1).led1_final = c.led1_final ∧
        (timerStop c1).led2_final = c.led2_final) ∧
    ((sample c i).state = ON → (sample c i).lowBatteryCount ≤ 100 →
      ∃ w : Candle × List Event,
        w = wake dev (sample c i) i.light ∧
        loopBody dev c i = ((flicker dev w.1).1, w.2 ++ (flicker dev w.1).2) ∧
        (flicker dev w.1).2.length = 8 ∧
        (∀ e ∈ (loopBody dev c i).2, e.isSleep = false) ∧
        (loopBody dev c i).1.TCCR0B ≠ 0 ∧
        (loopBody dev c i).1.rand_value = randNext w.1.rand_value ∧
        (loopBody dev c i).1.led1_final = newTarget (randNext w.1.rand_value) ∧
        (loopBody dev c i).1.led2_final = c.led1_final) := by
  have hinv := reachable_inv dev c hr
  have hk := wake_keeps dev (sample c i) i.light
  refine ⟨sample_state_cases c i hinv.1, ?_, ?_, ?_⟩
  · intro hs
    have hI := loopBody_inv dev c i hinv
    have hst : (loopBody dev c i).1.state = OFF := by
      rw [loopBody_off dev c i hs]
      unfold powerDown
      by_cases h : (sample c i).TCCR0B = 0
      · rw [if_neg (not_not.mpr h)]
        exact hs
      · rw [if_pos h]
        exact hs
    have h0 : (loopBody dev c i).1.TCCR0B = 0 := hI.2.1 hst
    have hp := powerDown_keeps (sample c i)
    rw [← loopBody_off dev c i hs] at hp
    exact ⟨loopBody_off dev c i hs, hp.1, h0, hI.2.2.1 h0, hp.2.1, hp.2.2.1, hp.2.2.2⟩
  · intro hs hb
    have hne : (sample c i).state ≠ OFF := by
      rw [hs]
      exact ON_ne_OFF
    exact ⟨_, _, rfl, rfl, loopBody_flash dev c i hne hb, wake_no_sleep dev _ _,
      rfl, rfl, rfl, wake_rand_value dev _ _, hk.1, hk.2.1⟩
  · intro hs hb
    have hne : (sample c i).state ≠ OFF := by
      rw [hs]
      exact ON_ne_OFF
    have hstep := loopBody_flicker dev c i hne hb
    refine ⟨_, rfl, hstep, flicker_length dev _, ?_, ?_, ?_, ?_, ?_⟩
    · intro e he
      rw [hstep, List.mem_append] at he
      rcases he with he | he
      · exact wake_no_sleep dev _ _ e he
      · exact flicker_no_sleep dev _ e he
    · rw [hstep, flicker_fst]
      exact wake_TCCR0B dev _ _
    · rw [hstep, flicker_fst]
    · rw [hstep, flicker_fst]
    · rw [hstep, flicker_fst]
      exact hk.1

theorem C11_power_arbitration_witness :
    (loopBody attiny10 (powerOn 0) { battery := false, light := 0 }).1.TCCR0B = 0 :=
  ((C11_power_arbitration attiny10 (powerOn 0) { battery := false, light := 0 }
    ⟨0, [], rfl⟩).2.1 rfl).2.2.1

/-- C16: in a reachable state a stopped timer (`TCCR0B = 0`) comes with
`TCCR0A = 0` and both LED bits of `PORTB` low, and at every `sleep_cpu()` of a
pass from a reachable state `TCCR0A = 0`, `TCCR0B = 0` and both LED bits of
`PORTB` are low. -/
theorem C16_sleep_with_pwm_off (dev : Device) (c : Candle) (i : Inputs)
    (hr : Reachable dev c) :
    (c.TCCR0B = 0 →
      c.TCCR0A = 0 ∧ c.PORTB.testBit LED1 = false ∧ c.PORTB.testBit LED2 = false) ∧
    (∀ e ∈ (loopBody dev c i).2, e.isSleep = true →
      e.candle.TCCR0A = 0 ∧ e.candle.TCCR0B = 0 ∧
      e.candle.PORTB.testBit LED1 = false ∧ e.candle.PORTB.testBit LED2 = false) := by
  have hinv := reachable_inv dev c hr
  have hI := loopBody_inv dev c i hinv
  have hk := wake_keeps dev (sample c i) i.light
  refine ⟨fun h => ⟨hinv.2.2.1 h, hinv.2.2.2.1.1, hinv.2.2.2.1.2⟩, ?_⟩
  intro e he hsl
  by_cases hs : (sample c i).state = OFF
  · have hp := (powerDown_keeps (sample c i)).1
    rw [← loopBody_off dev c i hs] at hp
    rw [hp, List.mem_singleton] at he
    have hst : (loopBody dev c i).1.state = OFF := by
      rw [loopBody_off dev c i hs]
      unfold powerDown
      by_cases h : (sample c i).TCCR0B = 0
      · rw [if_neg (not_not.mpr h)]
        exact hs
      · rw [if_pos h]
        exact hs
    have h0 : (loopBody dev c i).1.TCCR0B = 0 := hI.2.1 hst
    rw [he]
    exact ⟨hI.2.2.1 h0, h0, hI.2.2.2.1.1, hI.2.2.2.1.2⟩
  · by_cases hb : (sample c i).lowBatteryCount ≤ 100
    · rw [loopBody_flicker dev c i hs hb, List.mem_append] at he
      rcases he with he | he
      · rw [wake_no_sleep dev _ _ e he] at hsl
        exact absurd hsl (by decide)
      · rw [flicker_no_sleep dev _ e he] at hsl
        exact absurd hsl (by decide)
    · rw [loopBody_flash dev c i hs (by omega), List.mem_append] at he
      rcases he with he | he
      · rw [wake_no_sleep dev _ _ e he] at hsl
        exact absurd hsl (by decide)
      · have he2 : e = Event.delay 25 { (wake dev (sample c i) i.light).1 with OCR0A := PWM_MIN }
            ∨ e = Event.sleep (timerStop
              { (wake dev (sample c i) i.light).1 with OCR0A := PWM_MIN }) := by
          simpa [lowBatteryFlash] using he
        rcases he2 with rfl | rfl
        · exact absurd hsl Bool.false_ne_true
        · exact ⟨rfl, rfl,
            timerStop_keeps_clear _ _ (by show (wake _ _ _).1.PORTB.testBit _ = _
                                          rw [hk.2.2]; exact hinv.2.2.2.1.1),
            timerStop_keeps_clear _ _ (by show (wake _ _ _).1.PORTB.testBit _ = _
                                          rw [hk.2.2]; exact hinv.2.2.2.1.2)⟩

theorem C16_sleep_with_pwm_off_witness :
    (loopBody attiny10 (powerOn 0) { battery := false, light := 0 }).1.TCCR0A = 0 ∧
    (loopBody attiny10 (powerOn 0) { battery := false, light := 0 }).1.TCCR0B = 0 ∧
    (loopBody attiny10 (powerOn 0) { battery := false, light := 0 }).1.PORTB.testBit LED1
      = false ∧
    (loopBody attiny10 (powerOn 0) { battery := false, light := 0 }).1.PORTB.testBit LED2
      = false :=
  (C16_sleep_with_pwm_off attiny10 (powerOn 0) { battery := false, light := 0 }
    ⟨0, [], rfl⟩).2
    (Event.sleep (loopBody attiny10 (powerOn 0) { battery := false, light := 0 }).1)
    (by decide) rfl

theorem run_heldLow_OCR0B (dev : Device) (c : Candle) (Ls : Nat → Nat)
    (hinv : LoopInv c) (h0 : c.lowBatteryCount = 0) (hL : ∀ k, 1200 ≤ Ls k) :
    128 ≤ (run dev c (heldLow Ls 100)).OCR0B := by
  have ht : (run dev c (heldLow Ls 99)).TCCR0B ≠ 0 :=
    run_heldLow_running dev c Ls h0 hL 98 (by omega)
  have hI := run_inv dev (heldLow Ls 99) c hinv
  have hf := (hI.2.2.2.2.2.2 ht).2.2
  have h1 := hI.2.2.2.2.1
  have hd := dutyMod_ge dev
  have hb : batteryUpdate true (run dev c (heldLow Ls 99)).lowBatteryCount ≤ 100 := by
    rw [run_heldLow_count dev c Ls h0 99 (by omega), batteryUpdate_true_of_lt 99 (by omega)]
  rw [run_heldLow_succ, loopBody_running_flicker dev _ _ ht (hL 99) hb, flicker_fst]
  show 128 ≤ (run dev c (heldLow Ls 99)).led1_final % dutyMod dev
  rw [Nat.mod_eq_of_lt (by omega)]
  exact hf

theorem flash_after_flicker (dev : Device) (c : Candle) (Ls : Nat → Nat)
    (hinv : LoopInv c) (h0 : c.lowBatteryCount = 0) (hL : ∀ k, 1200 ≤ Ls k) :
    ∃ c1 c2 : Candle,
      loopBody dev (run dev c (heldLow Ls 100)) { battery := true, light := Ls 100 }
        = (c2, [Event.delay 25 c1, Event.sleep c2]) ∧
      c1.TCCR0B ≠ 0 ∧ c1.OCR0A = 0x80 ∧ 128 ≤ c1.OCR0B := by
  have hon : (sample (run dev c (heldLow Ls 100))
      { battery := true, light := Ls 100 }).state = ON := sample_state_dark _ _ (hL 100)
  have hcnt : (sample (run dev c (heldLow Ls 100))
      { battery := true, light := Ls 100 }).lowBatteryCount = 101 := by
    rw [sample_lowBatteryCount, run_heldLow_count dev c Ls h0 100 (by omega)]
    exact batteryUpdate_true_of_lt 100 (by omega)
  have hrun : (sample (run dev c (heldLow Ls 100))
      { battery := true, light := Ls 100 }).TCCR0B ≠ 0 :=
    run_heldLow_running dev c Ls h0 hL 99 (by omega)
  have hstep := loopBody_flash dev (run dev c (heldLow Ls 100))
    { battery := true, light := Ls 100 } (by rw [hon]; exact ON_ne_OFF) (by omega)
  rw [wake_of_running dev _ _ hrun] at hstep
  exact ⟨_, _, hstep, hrun, rfl, run_heldLow_OCR0B dev c Ls hinv h0 hL⟩

/-- C12: the low-battery flash that directly follows a flicker cycle does not
drive channel 1 alone.  From power-on with `light = 4000` and the battery
input asserted at every pass, the pass 101 is the low-battery flash, and during
its 25 ms hold the timer is on, channel 1 is at `0x80` and channel 2 still has
the duty of the last flicker cycle, which is at least 128, not 0. -/
theorem C12_flash_after_flicker_keeps_channel2 :
    Reachable attiny10 (run attiny10 (powerOn 0) (heldLow (fun _ => 4000) 100)) ∧
    ∃ c1 c2 : Candle,
      loopBody attiny10 (run attiny10 (powerOn 0) (heldLow (fun _ => 4000) 100))
          { battery := true, light := 4000 }
        = (c2, [Event.delay 25 c1, Event.sleep c2]) ∧
      c1.TCCR0B ≠ 0 ∧ c1.OCR0A = 0x80 ∧ 128 ≤ c1.OCR0B :=
  ⟨⟨0, _, rfl⟩,
    flash_after_flicker attiny10 (powerOn 0) (fun _ => 4000) (powerOn_inv 0) rfl
      (fun _ => (by decide : 1200 ≤ 4000))⟩

/-! ## The duty registers during a flicker cycle -/

theorem rampValue_safe (final pwm j : Nat) (hj : j ≤ 7) (hp : pwm ≤ 254)
    (hf : final ≤ 254) (h : pwm = 0 ∨ (128 ≤ pwm ∧ 128 ≤ final)) :
    0 ≤ rampValue pwm (((final : Int) - (pwm : Int)) / 8) j ∧
    rampValue pwm (((final : Int) - (pwm : Int)) / 8) j ≤ 254 ∧
    (pwm ≠ 0 → 122 ≤ rampValue pwm (((final : Int) - (pwm : Int)) / 8) j) := by
  unfold rampValue
  interval_cases j <;> omega

theorem channelCycle_int (dev : Device) (pwm final : Nat) (hp : pwm ≤ 254)
    (hf : final ≤ 254) (h : pwm = 0 ∨ (128 ≤ pwm ∧ 128 ≤ final)) :
    channelCycle dev pwm final =
      (List.range 7).map
        (fun k => (rampValue pwm (((final : Int) - (pwm : Int)) / 8) (k + 1)).toNat)
      ++ [final] := by
  have hd := dutyMod_ge dev
  unfold channelCycle
  rw [ledStep_eq dev final pwm (by omega) (by omega), Nat.mod_eq_of_lt (by omega)]
  show (List.range 7).map
      (fun k => (fun p => dutyAdd dev p (((final : Int) - (pwm : Int)) / 8))^[k + 1] pwm)
    ++ [final] = _
  congr 1
  apply List.map_congr_left
  intro k hk
  have hk7 : k + 1 ≤ 7 := by
    have := List.mem_range.mp hk
    omega
  have hr := dutyAdd_ramp dev pwm (((final : Int) - (pwm : Int)) / 8) (k + 1)
    (fun j hj => by
      have := rampValue_safe final pwm j (by omega) hp hf h
      omega)
  show (fun p => dutyAdd dev p (((final : Int) - (pwm : Int)) / 8))^[k + 1] pwm = _
  rw [← hr, Int.toNat_ofNat]

theorem channelCycle_mem (dev : Device) (pwm final v : Nat) (hp : pwm ≤ 254)
    (hf : final ≤ 254) (h : pwm = 0 ∨ (128 ≤ pwm ∧ 128 ≤ final))
    (hv : v ∈ channelCycle dev pwm final) :
    v ≤ 254 ∧ (pwm ≠ 0 → 122 ≤ v) := by
  rw [channelCycle_int dev pwm final hp hf h, List.mem_append, List.mem_map,
    List.mem_singleton] at hv
  rcases hv with ⟨k, hk, rfl⟩ | rfl
  · have hs := rampValue_safe final pwm (k + 1)
      (by have := List.mem_range.mp hk; omega) hp hf h
    constructor
    · omega
    · intro h0
      have := hs.2.2 h0
      omega
  · exact ⟨hf, fun h0 => by omega⟩

/-- The state at the start of a flicker cycle of a pass from a reachable
state: each duty is 0 or the previous target of its channel, and a non-zero
duty comes with targets of at least 128. -/
theorem cycle_start (dev : Device) (c : Candle) (i : Inputs) (hr : Reachable dev c) :
    ((wake dev (sample c i) i.light).1.OCR0A = 0 ∧
       (wake dev (sample c i) i.light).1.OCR0B = 0 ∨
     (wake dev (sample c i) i.light).1.OCR0A = c.led1_final ∧
       (wake dev (sample c i) i.light).1.OCR0B = c.led2_final ∧
       128 ≤ c.led1_final) ∧
    (wake dev (sample c i) i.light).1.led1_final = c.led1_final ∧
    (wake dev (sample c i) i.light).1.led2_final = c.led2_final ∧
    (c.led1_final = 0 ∨ (128 ≤ c.led1_final ∧ c.led1_final ≤ 254)) ∧
    (c.led2_final = 0 ∨ (128 ≤ c.led2_final ∧ c.led2_final ≤ 254)) := by
  have hinv := reachable_inv dev c hr
  have hk := wake_keeps dev (sample c i) i.light
  refine ⟨?_, hk.1, hk.2.1, hinv.2.2.2.2.1, hinv.2.2.2.2.2.1⟩
  by_cases h : c.TCCR0B = 0
  · rw [wake_of_stopped dev (sample c i) i.light h]
    exact Or.inl ⟨rfl, rfl⟩
  · rw [wake_of_running dev (sample c i) i.light h]
    exact Or.inr (hinv.2.2.2.2.2.2 h)

/-! ## Claims C13 and C18 -/

/-- C13, as stated, fails: in the flicker cycle that produces the first target
(power-on, `light = 4000`) channel 1 is written 18, 36, ..., 126 before the
final 147, and channel 2 is written 0 throughout; and in a later cycle
(`light = 1650`, second pass) channel 1 falls from 138 to 126 and 124 before
the final 129.  These values are below `0x80`. -/
theorem C13_counterexample :
    (loopBody attiny10 (powerOn 0) { battery := false, light := 4000 }).2.map
        (fun e => (e.isStart, e.candle.OCR0A, e.candle.OCR0B))
      = [(true, 0, 0), (false, 18, 0), (false, 36, 0), (false, 54, 0), (false, 72, 0),
         (false, 90, 0), (false, 108, 0), (false, 126, 0), (false, 147, 0)] ∧
    (loopBody attiny10
        (loopBody attiny10 (powerOn 0) { battery := false, light := 1650 }).1
        { battery := false, light := 1650 }).2.map
        (fun e => (e.isStart, e.candle.OCR0A))
      = [(false, 136), (false, 134), (false, 132), (false, 130), (false, 128),
         (false, 126), (false, 124), (false, 129)] ∧
    ¬ (∀ e ∈ (loopBody attiny10 (powerOn 0) { battery := false, light := 4000 }).2,
        e.isStart = false →
          (0x80 ≤ e.candle.OCR0A ∧ e.candle.OCR0A ≤ 0xFF) ∧
          (0x80 ≤ e.candle.OCR0B ∧ e.candle.OCR0B ≤ 0xFF)) := by
  refine ⟨by decide, by decide, by decide⟩

/-- C13, amended: in every flicker cycle of a pass from a reachable state the
final assignment leaves channel 1 in [0x80, 0xFE], and channel 2 as well once a
target had been produced before the cycle (`led1_final` not 0); every value a
channel takes during the cycle is at most 0xFE, and at least 0x80 - 6 = 122
when the channel starts the cycle from a non-zero duty. -/
theorem C13_brightness_floor_amended (dev : Device) (c : Candle) (i : Inputs)
    (hr : Reachable dev c) (hs : (sample c i).state = ON)
    (hb : (sample c i).lowBatteryCount ≤ 100) :
    ∃ w : Candle, w = (wake dev (sample c i) i.light).1 ∧
      (loopBody dev c i).1 = (flicker dev w).1 ∧
      (128 ≤ (loopBody dev c i).1.OCR0A ∧ (loopBody dev c i).1.OCR0A ≤ 254) ∧
      (c.led1_final ≠ 0 →
        128 ≤ (loopBody dev c i).1.OCR0B ∧ (loopBody dev c i).1.OCR0B ≤ 254) ∧
      (∀ v ∈ (flicker dev w).2.map (fun e => e.candle.OCR0A),
        v ≤ 254 ∧ (w.OCR0A ≠ 0 → 122 ≤ v)) ∧
      (∀ v ∈ (flicker dev w).2.map (fun e => e.candle.OCR0B),
        v ≤ 254 ∧ (w.OCR0B ≠ 0 → 122 ≤ v)) := by
  have hne : (sample c i).state ≠ OFF := by
    rw [hs]
    exact ON_ne_OFF
  have hstep := loopBody_flicker dev c i hne hb
  obtain ⟨hduty, hf1, _, h1, h2⟩ := cycle_start dev c i hr
  have hd := dutyMod_ge dev
  have hn := newTarget_eq (randNext (wake dev (sample c i) i.light).1.rand_value)
  have hm := Nat.mod_lt (randNext (wake dev (sample c i) i.light).1.rand_value)
    (by decide : 0 < 127)
  refine ⟨_, rfl, by rw [hstep], ?_, ?_, ?_, ?_⟩
  · rw [hstep, flicker_fst]
    show 128 ≤ newTarget _ % dutyMod dev ∧ newTarget _ % dutyMod dev ≤ 254
    rw [Nat.mod_eq_of_lt (by omega)]
    omega
  · intro h0
    rw [hstep, flicker_fst]
    show 128 ≤ (wake dev (sample c i) i.light).1.led1_final % dutyMod dev ∧
      (wake dev (sample c i) i.light).1.led1_final % dutyMod dev ≤ 254
    rw [hf1, Nat.mod_eq_of_lt (by omega)]
    omega
  · intro v hv
    rw [flicker_OCR0A_trace] at hv
    exact channelCycle_mem dev _ _ v (by omega) (by omega) (by omega) hv
  · intro v hv
    rw [flicker_OCR0B_trace, hf1] at hv
    exact channelCycle_mem dev _ _ v (by omega) (by omega) (by omega) hv

theorem C13_brightness_floor_amended_witness :
    ∃ w : Candle,
      w = (wake attiny10 (sample (powerOn 0) { battery := false, light := 4000 }) 4000).1 ∧
      (loopBody attiny10 (powerOn 0) { battery := false, light := 4000 }).1
        = (flicker attiny10 w).1 ∧
      (128 ≤ (loopBody attiny10 (powerOn 0) { battery := false, light := 4000 }).1.OCR0A ∧
        (loopBody attiny10 (powerOn 0) { battery := false, light := 4000 }).1.OCR0A ≤ 254) ∧
      ((powerOn 0).led1_final ≠ 0 →
        128 ≤ (loopBody attiny10 (powerOn 0) { battery := false, light := 4000 }).1.OCR0B ∧
        (loopBody attiny10 (powerOn 0) { battery := false, light := 4000 }).1.OCR0B ≤ 254) ∧
      (∀ v ∈ (flicker attiny10 w).2.map (fun e => e.candle.OCR0A),
        v ≤ 254 ∧ (w.OCR0A ≠ 0 → 122 ≤ v)) ∧
      (∀ v ∈ (flicker attiny10 w).2.map (fun e => e.candle.OCR0B),
        v ≤ 254 ∧ (w.OCR0B ≠ 0 → 122 ≤ v)) :=
  C13_brightness_floor_amended attiny10 (powerOn 0) { battery := false, light := 4000 }
    ⟨0, [], rfl⟩ (by decide) (by decide)

/-- C18: at the start of every flicker cycle of a pass from a reachable state
each channel's duty is 0 or the previous target of that channel, each target is
0 or in [128, 254], and a channel with a non-zero duty has a target of at least
128; every intermediate value `duty + k * step` (k = 1..7), over the integers,
lies in [0, 254]; so the values the registers take are these integers, the same
for an 8-bit and for a 16-bit register. -/
theorem C18_no_wraparound (dev : Device) (c : Candle) (i : Inputs)
    (hr : Reachable dev c) (hs : (sample c i).state = ON)
    (hb : (sample c i).lowBatteryCount ≤ 100) :
    ∃ (w : Candle) (t1 t2 : Nat),
      w = (wake dev (sample c i) i.light).1 ∧
      t1 = newTarget (randNext w.rand_value) ∧ t2 = w.led1_final ∧
      (loopBody dev c i).2 = (wake dev (sample c i) i.light).2 ++ (flicker dev w).2 ∧
      (w.OCR0A = 0 ∨ w.OCR0A = w.led1_final) ∧
      (w.OCR0B = 0 ∨ w.OCR0B = w.led2_final) ∧
      (128 ≤ t1 ∧ t1 ≤ 254) ∧ (t2 = 0 ∨ (128 ≤ t2 ∧ t2 ≤ 254)) ∧
      (w.OCR0A ≠ 0 → 128 ≤ t1) ∧ (w.OCR0B ≠ 0 → 128 ≤ t2) ∧
      (∀ k, 1 ≤ k → k ≤ 7 →
        (0 ≤ rampValue w.OCR0A (ledStep dev t1 w.OCR0A) k ∧
          rampValue w.OCR0A (ledStep dev t1 w.OCR0A) k ≤ 254) ∧
        (0 ≤ rampValue w.OCR0B (ledStep dev t2 w.OCR0B) k ∧
          rampValue w.OCR0B (ledStep dev t2 w.OCR0B) k ≤ 254)) ∧
      (∀ b : Bool,
        channelCycle { dev with duty16 := b } w.OCR0A t1
          = (List.range 7).map
              (fun k => (rampValue w.OCR0A (ledStep dev t1 w.OCR0A) (k + 1)).toNat)
            ++ [t1] ∧
        channelCycle { dev with duty16 := b } w.OCR0B t2
          = (List.range 7).map
              (fun k => (rampValue w.OCR0B (ledStep dev t2 w.OCR0B) (k + 1)).toNat)
            ++ [t2]) ∧
      (flicker dev w).2.map (fun e => e.candle.OCR0A) = channelCycle dev w.OCR0A t1 ∧
      (flicker dev w).2.map (fun e => e.candle.OCR0B) = channelCycle dev w.OCR0B t2 := by
  have hne : (sample c i).state ≠ OFF := by
    rw [hs]
    exact ON_ne_OFF
  have hstep := loopBody_flicker dev c i hne hb
  obtain ⟨hduty, hf1, hf2, h1, h2⟩ := cycle_start dev c i hr
  have hn := newTarget_eq (randNext (wake dev (sample c i) i.light).1.rand_value)
  have hm := Nat.mod_lt (randNext (wake dev (sample c i) i.light).1.rand_value)
    (by decide : 0 < 127)
  have hA : (wake dev (sample c i) i.light).1.OCR0A ≤ 254 ∧
      ((wake dev (sample c i) i.light).1.OCR0A = 0 ∨
        128 ≤ (wake dev (sample c i) i.light).1.OCR0A) := by omega
  have hB : (wake dev (sample c i) i.light).1.OCR0B ≤ 254 ∧
      ((wake dev (sample c i) i.light).1.OCR0B = 0 ∨
        (128 ≤ (wake dev (sample c i) i.light).1.OCR0B ∧
          128 ≤ (wake dev (sample c i) i.light).1.led1_final)) := by omega
  have hs1 := ledStep_eq dev (newTarget (randNext (wake dev (sample c i) i.light).1.rand_value))
    (wake dev (sample c i) i.light).1.OCR0A (by omega) (by omega)
  have hs2 := ledStep_eq dev (wake dev (sample c i) i.light).1.led1_final
    (wake dev (sample c i) i.light).1.OCR0B (by omega) (by omega)
  refine ⟨_, _, _, rfl, rfl, rfl, by rw [hstep], by omega, by omega, by omega, by omega,
    fun _ => by omega, fun _ => by omega, ?_, ?_, flicker_OCR0A_trace dev _,
    flicker_OCR0B_trace dev _⟩
  · intro k _ hk7
    rw [hs1, hs2]
    have r1 := rampValue_safe (newTarget (randNext (wake dev (sample c i) i.light).1.rand_value))
      (wake dev (sample c i) i.light).1.OCR0A k hk7 hA.1 (by omega) (by omega)
    have r2 := rampValue_safe (wake dev (sample c i) i.light).1.led1_final
      (wake dev (sample c i) i.light).1.OCR0B k hk7 hB.1 (by omega) (by omega)
    exact ⟨⟨r1.1, r1.2.1⟩, ⟨r2.1, r2.2.1⟩⟩
  · intro b
    rw [hs1, hs2]
    exact ⟨channelCycle_int _ _ _ hA.1 (by omega) (by omega),
      channelCycle_int _ _ _ hB.1 (by omega) (by omega)⟩

theorem C18_no_wraparound_witness :
    (loopBody attiny10 (powerOn 0) { battery := false, light := 4000 }).2
      = (wake attiny10 (sample (powerOn 0) { battery := false, light := 4000 }) 4000).2
        ++ (flicker attiny10
          (wake attiny10 (sample (powerOn 0) { battery := false, light := 4000 }) 4000).1).2 := by
  obtain ⟨w, t1, t2, hw, _, _, h, _⟩ :=
    C18_no_wraparound attiny10 (powerOn 0) { battery := false, light := 4000 }
      ⟨0, [], rfl⟩ (by decide) (by decide)
  rw [h, hw]

/-! ## Claim C14 -/

theorem loopBody_keeps_led1 (dev : Device) (c : Candle) (i : Inputs)
    (hst : c.state = OFF ∨ c.state = ON)
    (h : ¬ ((sample c i).state = ON ∧ (sample c i).lowBatteryCount ≤ 100)) :
    (loopBody dev c i).1.led1_final = c.led1_final := by
  by_cases hs : (sample c i).state = OFF
  · rw [loopBody_off dev c i hs]
    exact (powerDown_keeps _).2.2.1
  · have hon : (sample c i).state = ON := by
      rcases sample_state_cases c i hst with h1 | h1
      · exact absurd h1 hs
      · exact h1
    have hb : 100 < (sample c i).lowBatteryCount := by
      by_contra hle
      exact h ⟨hon, by omega⟩
    rw [loopBody_flash dev c i hs hb]
    exact (wake_keeps dev _ _).1

theorem run_no_flicker_led1 (dev : Device) :
    ∀ (ins : List Inputs) (c : Candle), LoopInv c →
      (∀ pre j post, ins = pre ++ j :: post →
        ¬ ((sample (run dev c pre) j).state = ON ∧
           (sample (run dev c pre) j).lowBatteryCount ≤ 100)) →
      (run dev c ins).led1_final = c.led1_final := by
  intro ins
  induction ins with
  | nil => intro c _ _; rfl
  | cons x xs ih =>
    intro c hinv h
    have h0 := loopBody_keeps_led1 dev c x hinv.1 (h [] x xs rfl)
    show (run dev (loopBody dev c x).1 xs).led1_final = _
    rw [ih _ (loopBody_inv dev c x hinv)
      (fun pre j post hp => h (x :: pre) j post (by rw [hp]; rfl)), h0]

theorem channelCycle_zero (dev : Device) : ∀ v ∈ channelCycle dev 0 0, v = 0 := by
  intro v hv
  rw [channelCycle_int dev 0 0 (by omega) (by omega) (Or.inl rfl), List.mem_append,
    List.mem_map, List.mem_singleton] at hv
  rcases hv with ⟨k, _, rfl⟩ | rfl
  · simp [rampValue]
  · rfl

/-- C14: in every flicker cycle the target given to channel 2 is the target
channel 1 had before the cycle; so of two flicker cycles that follow one
another (directly, or with passes in between that are not flicker cycles)
the second leaves channel 2 at the duty at which the first left channel 1; and
in the first flicker cycle after power-on that target is the initial 0, the
step of channel 2 is 0 and its duty is 0 at every point of the pass. -/
theorem C14_delayed_coupling (dev : Device) :
    (∀ (c : Candle) (i : Inputs), Reachable dev c →
      (sample c i).state = ON → (sample c i).lowBatteryCount ≤ 100 →
      (loopBody dev c i).1.led2_final = c.led1_final) ∧
    (∀ (c : Candle) (i1 : Inputs) (mid : List Inputs) (i2 : Inputs), Reachable dev c →
      (sample c i1).state = ON → (sample c i1).lowBatteryCount ≤ 100 →
      (∀ pre j post, mid = pre ++ j :: post →
        ¬ ((sample (run dev (loopBody dev c i1).1 pre) j).state = ON ∧
           (sample (run dev (loopBody dev c i1).1 pre) j).lowBatteryCount ≤ 100)) →
      (sample (run dev (loopBody dev c i1).1 mid) i2).state = ON →
      (sample (run dev (loopBody dev c i1).1 mid) i2).lowBatteryCount ≤ 100 →
      (loopBody dev (run dev (loopBody dev c i1).1 mid) i2).1.OCR0B
        = (loopBody dev c i1).1.OCR0A) ∧
    (∀ (junk : Nat) (ins : List Inputs) (i : Inputs),
      (∀ pre j post, ins = pre ++ j :: post →
        ¬ ((sample (run dev (powerOn junk) pre) j).state = ON ∧
           (sample (run dev (powerOn junk) pre) j).lowBatteryCount ≤ 100)) →
      (sample (run dev (powerOn junk) ins) i).state = ON →
      (sample (run dev (powerOn junk) ins) i).lowBatteryCount ≤ 100 →
      (run dev (powerOn junk) ins).led1_final = 0 ∧
      (loopBody dev (run dev (powerOn junk) ins) i).1.led2_final = 0 ∧
      (loopBody dev (run dev (powerOn junk) ins) i).1.led2_step = 0 ∧
      ∀ e ∈ (loopBody dev (run dev (powerOn junk) ins) i).2, e.candle.OCR0B = 0) := by
  have hd := dutyMod_ge dev
  refine ⟨?_, ?_, ?_⟩
  · intro c i _ hs hb
    rw [loopBody_flicker dev c i (by rw [hs]; exact ON_ne_OFF) hb, flicker_fst]
    exact (wake_keeps dev _ _).1
  · intro c i1 mid i2 hr hs1 hb1 hmid hs2 hb2
    have hI1 := loopBody_inv dev c i1 (reachable_inv dev c hr)
    have hk := run_no_flicker_led1 dev mid _ hI1 hmid
    have hA : (loopBody dev c i1).1.OCR0A = (loopBody dev c i1).1.led1_final ∧
        (loopBody dev c i1).1.led1_final ≤ 254 := by
      have hn := newTarget_eq (randNext (wake dev (sample c i1) i1.light).1.rand_value)
      have hm := Nat.mod_lt (randNext (wake dev (sample c i1) i1.light).1.rand_value)
        (by decide : 0 < 127)
      rw [loopBody_flicker dev c i1 (by rw [hs1]; exact ON_ne_OFF) hb1, flicker_fst]
      constructor
      · show newTarget _ % dutyMod dev = newTarget _
        exact Nat.mod_eq_of_lt (by omega)
      · show newTarget _ ≤ 254
        omega
    rw [loopBody_flicker dev _ i2 (by rw [hs2]; exact ON_ne_OFF) hb2, flicker_fst]
    show (wake dev _ _).1.led1_final % dutyMod dev = _
    rw [(wake_keeps dev _ _).1]
    show (run dev (loopBody dev c i1).1 mid).led1_final % dutyMod dev = _
    rw [hk, hA.1, Nat.mod_eq_of_lt (by omega)]
  · intro junk ins i hno hs hb
    have hI := run_inv dev ins _ (powerOn_inv junk)
    have h0 : (run dev (powerOn junk) ins).led1_final = 0 :=
      run_no_flicker_led1 dev ins _ (powerOn_inv junk) hno
    have ht : (sample (run dev (powerOn junk) ins) i).TCCR0B = 0 := by
      by_contra hne
      have := (hI.2.2.2.2.2.2 hne).2.2
      omega
    have hstep := loopBody_flicker dev _ i (by rw [hs]; exact ON_ne_OFF) hb
    rw [wake_of_stopped dev _ _ ht] at hstep
    refine ⟨h0, ?_, ?_, ?_⟩
    · rw [hstep, flicker_fst]
      exact h0
    · rw [hstep, flicker_fst]
      show ledStep dev (run dev (powerOn junk) ins).led1_final 0 = 0
      rw [h0, ledStep_eq dev 0 0 (by omega) (by omega)]
      rfl
    · intro e he
      rw [hstep, List.mem_append, List.mem_singleton] at he
      rcases he with rfl | he
      · rfl
      · apply channelCycle_zero dev
        have hmem : e.candle.OCR0B ∈ (flicker dev _).2.map (fun e => e.candle.OCR0B) :=
          List.mem_map_of_mem _ he
        rw [flicker_OCR0B_trace] at hmem
        have e1 : (run dev (powerOn junk) ins).led1_final = 0 := h0
        simpa [sample, e1] using hmem

theorem C14_delayed_coupling_witness :
    (loopBody attiny10 (powerOn 0) { battery := false, light := 4000 }).1.led2_final = 0 ∧
    (loopBody attiny10 (powerOn 0) { battery := false, light := 4000 }).1.led2_step = 0 := by
  have h := (C14_delayed_coupling attiny10).2.2 0 [] { battery := false, light := 4000 }
    (fun pre j post hp => by simp at hp) (by decide) (by decide)
  exact ⟨h.2.1, h.2.2.1⟩

/-! ## Claim C19 -/

/-- While the timer runs, `rand_value` is what `randNext` makes of the `light`
read by the pass that last started the timer, applied once per flicker cycle
since then. -/
theorem seeded_inv (dev : Device) (junk : Nat) :
    ∀ ins : List Inputs, (run dev (powerOn junk) ins).TCCR0B ≠ 0 →
      ∃ pre j post, ins = pre ++ j :: post ∧
        (∃ c0, Event.start c0 ∈ (loopBody dev (run dev (powerOn junk) pre) j).2 ∧
          c0.rand_value = j.light) ∧
        (run dev (powerOn junk) ins).rand_value = randNext^[post.length + 1] j.light := by
  intro ins
  induction ins using List.reverseRecOn with
  | nil => intro h; exact absurd rfl h
  | append_singleton xs x ih =>
    intro ht
    rw [run_append] at ht ⊢
    change (loopBody dev (run dev (powerOn junk) xs) x).1.TCCR0B ≠ 0 at ht
    show ∃ pre j post, xs ++ [x] = pre ++ j :: post ∧ _ ∧
      (loopBody dev (run dev (powerOn junk) xs) x).1.rand_value = _
    by_cases hs : (sample (run dev (powerOn junk) xs) x).state = OFF
    · rw [loopBody_off dev _ x hs] at ht
      exact absurd (powerDown_frame _).1 ht
    · by_cases hb : (sample (run dev (powerOn junk) xs) x).lowBatteryCount ≤ 100
      · have hstep := loopBody_flicker dev _ x hs hb
        by_cases h0 : (run dev (powerOn junk) xs).TCCR0B = 0
        · rw [wake_of_stopped dev (sample _ x) x.light h0] at hstep
          refine ⟨xs, x, [], rfl,
            ⟨{ sample (run dev (powerOn junk) xs) x with
                OCR0A := 0, OCR0B := 0, TCCR0A := tccr0aOn dev,
                TCCR0B := tccr0bOn dev, rand_value := x.light }, ?_, rfl⟩, ?_⟩
          · rw [hstep]
            exact List.mem_append_left _ (List.mem_singleton.mpr (Eq.refl _))
          · rw [hstep, flicker_fst]
            simp only [List.length_nil, Nat.zero_add, Function.iterate_one]
        · obtain ⟨pre, j, post, hxs, hst, hrv⟩ := ih h0
          rw [wake_of_running dev (sample _ x) x.light h0] at hstep
          refine ⟨pre, j, post ++ [x], by rw [hxs]; simp, hst, ?_⟩
          rw [hstep, flicker_fst]
          show randNext (run dev (powerOn junk) xs).rand_value = _
          rw [hrv, List.length_append, List.length_singleton,
            Function.iterate_succ_apply' randNext (post.length + 1)]
      · rw [loopBody_flash dev _ x hs (by omega)] at ht
        exact absurd rfl ht

/-- C19: whatever `rand_value` held at power-on and whatever the inputs, when a
pass runs the flicker branch the timer is running and `rand_value` has been
assigned: some pass `j` (this one or an earlier one) ran lines 116-120 with
`rand_value = light`, and the PRNG state the cycle starts from is `randNext`
applied to that reading once per flicker cycle since; so the state and the
target after the cycle are functions of that reading and of the number of
cycles since the seeding only. -/
theorem C19_seeded_before_use (dev : Device) (junk : Nat) (ins : List Inputs) (i : Inputs)
    (hs : (sample (run dev (powerOn junk) ins) i).state = ON)
    (hb : (sample (run dev (powerOn junk) ins) i).lowBatteryCount ≤ 100) :
    ∃ pre j post, ins ++ [i] = pre ++ j :: post ∧
      (∃ c0, Event.start c0 ∈ (loopBody dev (run dev (powerOn junk) pre) j).2 ∧
        c0.rand_value = j.light) ∧
      (wake dev (sample (run dev (powerOn junk) ins) i) i.light).1.TCCR0B ≠ 0 ∧
      (wake dev (sample (run dev (powerOn junk) ins) i) i.light).1.rand_value
        = randNext^[post.length] j.light ∧
      (loopBody dev (run dev (powerOn junk) ins) i).1.rand_value
        = randNext^[post.length + 1] j.light ∧
      (loopBody dev (run dev (powerOn junk) ins) i).1.led1_final
        = newTarget (randNext^[post.length + 1] j.light) := by
  have hne : (sample (run dev (powerOn junk) ins) i).state ≠ OFF := by
    rw [hs]
    exact ON_ne_OFF
  have hstep := loopBody_flicker dev _ i hne hb
  have hw := wake_TCCR0B dev (sample (run dev (powerOn junk) ins) i) i.light
  by_cases h0 : (run dev (powerOn junk) ins).TCCR0B = 0
  · have hwk := wake_of_stopped dev (sample (run dev (powerOn junk) ins) i) i.light h0
    refine ⟨ins, i, [], rfl,
      ⟨{ sample (run dev (powerOn junk) ins) i with
          OCR0A := 0, OCR0B := 0, TCCR0A := tccr0aOn dev,
          TCCR0B := tccr0bOn dev, rand_value := i.light }, ?_, rfl⟩, hw, ?_, ?_, ?_⟩
    · rw [hstep, hwk]
      exact List.mem_append_left _ (List.mem_singleton.mpr (Eq.refl _))
    · rw [hwk]
      simp only [List.length_nil, Function.iterate_zero, id_eq]
    · rw [hstep, hwk, flicker_fst]
      simp only [List.length_nil, Nat.zero_add, Function.iterate_one]
    · rw [hstep, hwk, flicker_fst]
      simp only [List.length_nil, Nat.zero_add, Function.iterate_one]
  · obtain ⟨pre, j, post, hxs, hst, hrv⟩ := seeded_inv dev junk ins h0
    have hwk := wake_of_running dev (sample (run dev (powerOn junk) ins) i) i.light h0
    have hr : (wake dev (sample (run dev (powerOn junk) ins) i) i.light).1.rand_value
        = randNext^[(post ++ [i]).length] j.light := by
      rw [hwk, List.length_append, List.length_singleton]
      exact hrv
    refine ⟨pre, j, post ++ [i], by rw [hxs]; simp, hst, hw, hr, ?_, ?_⟩
    · rw [hstep, flicker_fst]
      show randNext (wake dev _ _).1.rand_value = _
      rw [hr, Function.iterate_succ_apply' randNext]
    · rw [hstep, flicker_fst]
      show newTarget (randNext (wake dev _ _).1.rand_value) = _
      rw [hr, Function.iterate_succ_apply' randNext]

theorem C19_seeded_before_use_witness :
    ∃ pre j post, [] ++ [({ battery := false, light := 4000 } : Inputs)] = pre ++ j :: post ∧
      (∃ c0, Event.start c0 ∈ (loopBody attiny10 (run attiny10 (powerOn 7) pre) j).2 ∧
        c0.rand_value = j.light) ∧
      (wake attiny10 (sample (run attiny10 (powerOn 7) []) { battery := false, light := 4000 })
        4000).1.TCCR0B ≠ 0 ∧
      (wake attiny10 (sample (run attiny10 (powerOn 7) []) { battery := false, light := 4000 })
        4000).1.rand_value = randNext^[post.length] j.light ∧
      (loopBody attiny10 (run attiny10 (powerOn 7) [])
        { battery := false, light := 4000 }).1.rand_value
        = randNext^[post.length + 1] j.light ∧
      (loopBody attiny10 (run attiny10 (powerOn 7) [])
        { battery := false, light := 4000 }).1.led1_final
        = newTarget (randNext^[post.length + 1] j.light) :=
  C19_seeded_before_use attiny10 7 [] { battery := false, light := 4000 }
    (by decide) (by decide)

end LEDCandle
